import Mathlib

/-!
Shallow embedding of the msxml3 schema cache (`dlls/msxml3/schema.c`):
a keyed store from namespace URI to reference-counted cache entries,
built over libxml2's chained hash table.

Modelling conventions:
* The hash table is modelled as an association list `List (String × Nat)`
  in scan order; the `Nat` values are entry identifiers into a separate
  store (entries are shared between collections by `addCollection`, so
  they live in a heap-like `Store` rather than inline).
* `LONG` values (reference counts, indices) are modelled as `Int`.
* External collaborators (the libxml2 schema compiler, the DOM node
  resolution helper, the document-view constructor) are oracles in `Env`
  or spec-modelled definitions, marked as such.
-/

/-- Outcome codes returned by the cache operations (`HRESULT` values used in
`schema.c`). -/
inductive HRESULT
  | S_OK
  | E_FAIL
  | E_INVALIDARG
  | E_POINTER
  | E_NOTIMPL
  | E_OUTOFMEMORY
deriving DecidableEq, Repr

/-- Schema dialects, from the `SCHEMA_TYPE` enum: `SCHEMA_TYPE_INVALID`,
`SCHEMA_TYPE_XDR` (legacy), `SCHEMA_TYPE_XSD` (modern). -/
inductive SCHEMA_TYPE
  | INVALID
  | XDR
  | XSD
deriving DecidableEq, Repr

/-- An XML namespace attached to a node: only the `href` field is read by
`schema_type_from_xmlDocPtr`. -/
structure XmlNs where
  href : String
deriving Repr

/-- An XML element node: name, optional namespace, and children (the content,
which the dialect detector never examines). -/
inductive XmlNode
  | mk (name : String) (ns : Option XmlNs) (children : List XmlNode)

/-- Name of an element node. -/
def XmlNode.name : XmlNode → String
  | .mk n _ _ => n

/-- Namespace of an element node. -/
def XmlNode.ns : XmlNode → Option XmlNs
  | .mk _ ns _ => ns

/-- Children of an element node. -/
def XmlNode.children : XmlNode → List XmlNode
  | .mk _ _ c => c

/-- A parsed document: `xmlDocGetRootElement` yields the optional root. -/
structure XmlDoc where
  root : Option XmlNode

/-- The constant `XSD_schema` of `schema.c`. -/
def XSD_schema : String := "schema"

/-- The constant `XSD_nsURI` of `schema.c`. -/
def XSD_nsURI : String := "http://www.w3.org/2001/XMLSchema"

/-- The constant `XDR_schema` of `schema.c`. -/
def XDR_schema : String := "Schema"

/-- The constant `XDR_nsURI` of `schema.c`. -/
def XDR_nsURI : String := "urn:schemas-microsoft-com:xml-data"

/-- `schema_type_from_xmlDocPtr`: classify a parsed document from its root
element only.  A root carrying a namespace is compared against the two fixed
signatures (XDR first, then XSD); a missing root, a root without a namespace,
or no match yields `SCHEMA_TYPE_INVALID`. -/
def schema_type_from_xmlDocPtr (schema : XmlDoc) : SCHEMA_TYPE :=
  match schema.root with
  | none => SCHEMA_TYPE.INVALID
  | some root =>
    match root.ns with
    | none => SCHEMA_TYPE.INVALID
    | some ns =>
      if root.name = XDR_schema ∧ ns.href = XDR_nsURI then SCHEMA_TYPE.XDR
      else if root.name = XSD_schema ∧ ns.href = XSD_nsURI then SCHEMA_TYPE.XSD
      else SCHEMA_TYPE.INVALID

/-- `xmlCopyDoc(doc, 1)`: a deep copy.  As a pure tree value the copy is equal
to the original (handle identity is outside this embedding). -/
def xmlCopyDoc (doc : XmlDoc) : XmlDoc := doc

/-- A cache entry (`struct _cache_entry`): dialect tag, optional compiled
schema (represented by its backing document; `NULL` for XDR entries), the
owned document, and the reference count. -/
structure cache_entry where
  type : SCHEMA_TYPE
  schema : Option XmlDoc
  doc : XmlDoc
  ref : Int

/-- `cache_entry_add_ref`: interlocked increment of the entry's count,
returning the updated entry. -/
def cache_entry_add_ref (entry : cache_entry) : cache_entry :=
  { entry with ref := entry.ref + 1 }

/-- Teardown actions performed by `cache_entry_release` when the count
reaches zero, in program order. -/
inductive CacheAction
  | xmldoc_release
  | schema_detach_doc
  | xmlSchemaFree
  | heap_free_entry
deriving DecidableEq, Repr

/-- `cache_entry_release`: interlocked decrement; when the new count is zero
the dialect-specific teardown runs: for XSD, release the document reference,
null the schema's doc pointer, free the compiled schema, free the entry; for
XDR, release the document reference and free the entry.  Returns the new
count and the list of teardown actions performed (empty unless zero). -/
def cache_entry_release (entry : cache_entry) : Int × List CacheAction :=
  let ref := entry.ref - 1
  (ref,
    if ref = 0 then
      if entry.type = SCHEMA_TYPE.XSD then
        [CacheAction.xmldoc_release, CacheAction.schema_detach_doc,
         CacheAction.xmlSchemaFree, CacheAction.heap_free_entry]
      else
        [CacheAction.xmldoc_release, CacheAction.heap_free_entry]
    else [])

/-- External collaborators of the construction paths.
`compileFromUrl` models `xmlSchemaNewParserCtxt` + `xmlSchemaParse` for a URL
(success yields the compiled schema's backing document); `compileFromDocument`
models `xmlSchemaNewDocParserCtxt` + `xmlSchemaParse` over an in-memory
document (the compiled schema's doc is the parsed copy itself). -/
structure Env where
  compileFromUrl : String → Option XmlDoc
  compileFromDocument : XmlDoc → Bool

/-- `cache_entry_from_url`: allocate an XSD entry with count 0; parse and
compile from the URL; on failure free the entry and return `NULL`; on success
the entry's document is the schema's backing document. -/
def cache_entry_from_url (env : Env) (url : String) : Option cache_entry :=
  match env.compileFromUrl url with
  | none => none
  | some sdoc =>
    some { type := SCHEMA_TYPE.XSD, schema := some sdoc, doc := sdoc, ref := 0 }

/-- `cache_entry_from_xsd_doc`: deep-copy the caller's document, compile the
copy; on failure free the copy and return `NULL`; on success the entry owns
the copy (count 0). -/
def cache_entry_from_xsd_doc (env : Env) (doc : XmlDoc) : Option cache_entry :=
  let new_doc := xmlCopyDoc doc
  if env.compileFromDocument new_doc then
    some { type := SCHEMA_TYPE.XSD, schema := some new_doc, doc := new_doc, ref := 0 }
  else none

/-- `cache_entry_from_xdr_doc`: deep-copy the caller's document; no compiled
schema is produced (`entry->schema = NULL`); always succeeds, entry born with
count 0. -/
def cache_entry_from_xdr_doc (doc : XmlDoc) : cache_entry :=
  { type := SCHEMA_TYPE.XDR, schema := none, doc := xmlCopyDoc doc, ref := 0 }

/-- The entry heap: entries are shared between collections, so they live in
an identifier-indexed store.  `entries` maps live identifiers to entries,
`freed` records identifiers whose entry's teardown has run (freed exactly
once), `nextId` is the next fresh identifier for `heap_alloc`. -/
structure Store where
  entries : List (Nat × cache_entry)
  freed : List Nat
  nextId : Nat

/-- Look up a live entry by identifier. -/
def lookupEntry (st : Store) (id : Nat) : Option cache_entry :=
  (st.entries.find? (fun p => p.1 = id)).map (fun p => p.2)

/-- `cache_free` (the deallocator passed to the hash table): release the
entry; if its count reaches zero the entry is freed (removed from the live
store and recorded in `freed`), otherwise only the decremented count is
stored back. -/
def cache_free (st : Store) (id : Nat) : Store :=
  match st.entries.find? (fun p => p.1 = id) with
  | none => st
  | some p =>
    let r := (cache_entry_release p.2).1
    if r = 0 then
      { st with entries := st.entries.filter (fun q => ¬ q.1 = id),
                freed := st.freed ++ [id] }
    else
      let upd := st.entries.map (fun q => if q.1 = id then (q.1, { q.2 with ref := r }) else q)
      { st with entries := upd }

/-- `cache_entry_add_ref` applied to a stored (shared) entry. -/
def store_add_ref (st : Store) (id : Nat) : Store :=
  let upd := st.entries.map (fun q => if q.1 = id then (q.1, cache_entry_add_ref q.2) else q)
  { st with entries := upd }

/-- `xmlHashLookup`: exact-key lookup in the table, `NULL` when absent. -/
def xmlHashLookup (c : List (String × Nat)) (name : String) : Option Nat :=
  (c.find? (fun p => p.1 = name)).map (fun p => p.2)

/-- The table-side effect of `xmlHashRemoveEntry`: unlink the entry holding
the key (the first one in scan order), if any. -/
def hashRemoveKey : List (String × Nat) → String → List (String × Nat)
  | [], _ => []
  | p :: rest, name => if p.1 = name then rest else p :: hashRemoveKey rest name

/-- `xmlHashRemoveEntry(cache, name, cache_free)`: find the entry for the
key; if present, call the deallocator on its payload and unlink it; absent
keys are a no-op. -/
def xmlHashRemoveEntry (st : Store) (c : List (String × Nat)) (name : String) :
    Store × List (String × Nat) :=
  match xmlHashLookup c name with
  | none => (st, c)
  | some id => (cache_free st id, hashRemoveKey c name)

/-- `xmlHashAddEntry`: fails (leaving the table unchanged) when the key is
already present; otherwise links the new entry.  The new entry's position in
the scan order is implementation-defined; this model appends it. -/
def xmlHashAddEntry (c : List (String × Nat)) (name : String) (id : Nat) :
    List (String × Nat) :=
  if c.any (fun p => p.1 = name) then c else c ++ [(name, id)]

/-- `xmlHashSize`: number of entries, as the `int` the C returns. -/
def xmlHashSize (c : List (String × Nat)) : Int :=
  (c.length : Int)

/-- The collection facade (`struct _schema_cache`): the hash table and the
facade's own reference count. -/
structure schema_cache where
  cache : List (String × Nat)
  ref : Int

/-- The schema source passed to `add` as a `VARIANT`: `VT_NULL`, `VT_BSTR`
(a URL), `VT_DISPATCH` (an object handle), or any other variant type.
The `VT_DISPATCH` payload models the resolution
`IDispatch_QueryInterface(..IXMLDOMNode..)` followed by
`xmlNodePtr_from_domnode(domnode, XML_DOCUMENT_NODE)->doc` (helpers outside
`schema.c`): `none` when the handle does not reference a document-bearing
node (failed interface query or non-document node), `some doc` otherwise. -/
inductive VARIANT
  | VT_NULL
  | VT_BSTR (url : String)
  | VT_DISPATCH (doc : Option XmlDoc)
  | VT_OTHER

/-- The successful tail of both non-null `add` branches (the C repeats this
block verbatim in the `VT_BSTR` and `VT_DISPATCH` cases): `heap_alloc` the
new entry (fresh identifier), `cache_entry_add_ref` it exactly once,
`xmlHashRemoveEntry` (releasing any replaced entry), `xmlHashAddEntry`. -/
def cache_insert (st : Store) (This : schema_cache) (uri : String)
    (entry : cache_entry) : Store × schema_cache :=
  let id := st.nextId
  let entry := cache_entry_add_ref entry
  let st := { st with entries := st.entries ++ [(id, entry)], nextId := id + 1 }
  let p := xmlHashRemoveEntry st This.cache uri
  (p.1, { This with cache := xmlHashAddEntry p.2 uri id })

/-- `schema_cache_add(uri, var)`: `VT_NULL` removes any entry at the key;
`VT_BSTR` builds from the URL (`E_FAIL` on construction failure);
`VT_DISPATCH` resolves the handle to a document (`E_INVALIDARG` when it does
not reference one), detects the dialect and builds accordingly (`E_FAIL` on
invalid dialect or construction failure); any other variant type is
`E_INVALIDARG`.  Successful non-null paths replace any previous entry. -/
def schema_cache_add (env : Env) (st : Store) (This : schema_cache)
    (uri : String) (var : VARIANT) : Store × schema_cache × HRESULT :=
  match var with
  | VARIANT.VT_NULL =>
    let p := xmlHashRemoveEntry st This.cache uri
    (p.1, { This with cache := p.2 }, HRESULT.S_OK)
  | VARIANT.VT_BSTR url =>
    match cache_entry_from_url env url with
    | none => (st, This, HRESULT.E_FAIL)
    | some entry =>
      let q := cache_insert st This uri entry
      (q.1, q.2, HRESULT.S_OK)
  | VARIANT.VT_DISPATCH doc? =>
    match doc? with
    | none => (st, This, HRESULT.E_INVALIDARG)
    | some doc =>
      let type := schema_type_from_xmlDocPtr doc
      let entry? :=
        if type = SCHEMA_TYPE.XSD then cache_entry_from_xsd_doc env doc
        else if type = SCHEMA_TYPE.XDR then some (cache_entry_from_xdr_doc doc)
        else none
      match entry? with
      | none => (st, This, HRESULT.E_FAIL)
      | some entry =>
        let q := cache_insert st This uri entry
        (q.1, q.2, HRESULT.S_OK)
  | VARIANT.VT_OTHER => (st, This, HRESULT.E_INVALIDARG)

/-- Modelled from the spec: `DOMDocument_create_from_xmldoc` (defined outside
`schema.c`) wraps the entry's owned document into a new document view; it
does not touch the entry's reference count. -/
structure DocView where
  doc : XmlDoc

/-- `schema_cache_get(uri, node)`: `E_POINTER` when no output slot is
supplied; absent key is success with a null result; a present key yields a
new document view over the entry's owned document.  Neither the table nor
any entry count is mutated, so the store passes through unchanged.  The
second component of the result is the written output slot (`none` when the
slot was never written). -/
def schema_cache_get (st : Store) (This : schema_cache) (uri : String)
    (hasSlot : Bool) : Store × HRESULT × Option (Option DocView) :=
  if ¬ hasSlot then (st, HRESULT.E_POINTER, none)
  else
    match xmlHashLookup This.cache uri with
    | some id =>
      match lookupEntry st id with
      | some entry => (st, HRESULT.S_OK, some (some { doc := entry.doc }))
      | none => (st, HRESULT.S_OK, some none)
    | none => (st, HRESULT.S_OK, some none)

/-- `schema_cache_remove(uri)`: `xmlHashRemoveEntry` with `cache_free` as
deallocator; always `S_OK`. -/
def schema_cache_remove (st : Store) (This : schema_cache) (uri : String) :
    Store × schema_cache × HRESULT :=
  let p := xmlHashRemoveEntry st This.cache uri
  (p.1, { This with cache := p.2 }, HRESULT.S_OK)

/-- `schema_cache_get_length`: `E_POINTER` without an output slot, else the
table size. -/
def schema_cache_get_length (This : schema_cache) (hasSlot : Bool) :
    HRESULT × Option Int :=
  if ¬ hasSlot then (HRESULT.E_POINTER, none)
  else (HRESULT.S_OK, some (xmlHashSize This.cache))

/-- One visit of `cache_index` during `xmlHashScan`: when the running
counter is exactly zero the visited key is written to the output slot; the
counter is post-decremented on every visit. -/
def cache_index (acc : Int × Option String) (name : String) :
    Int × Option String :=
  (acc.1 - 1, if acc.1 = 0 then some name else acc.2)

/-- `schema_cache_get_namespaceURI(index, len)`: `E_POINTER` without an
output slot; the slot is first nulled; `index >= xmlHashSize` is `E_FAIL`;
otherwise `xmlHashScan` runs `cache_index` over every key in scan order and
the call returns `S_OK` with whatever the scan wrote. -/
def schema_cache_get_namespaceURI (This : schema_cache) (index : Int)
    (hasSlot : Bool) : HRESULT × Option (Option String) :=
  if ¬ hasSlot then (HRESULT.E_POINTER, none)
  else if index ≥ xmlHashSize This.cache then (HRESULT.E_FAIL, some none)
  else
    (HRESULT.S_OK,
     some ((This.cache.map (fun p => p.1)).foldl cache_index (index, none)).2)

/-- One visit of `cache_copy` during `xmlHashScan` over the other
collection: keys absent from the destination get the shared entry
`cache_entry_add_ref`'d and linked; keys already present are skipped. -/
def cache_copy (acc : Store × schema_cache) (p : String × Nat) :
    Store × schema_cache :=
  match xmlHashLookup acc.2.cache p.1 with
  | some _ => acc
  | none =>
    (store_add_ref acc.1 p.2,
     { acc.2 with cache := xmlHashAddEntry acc.2.cache p.1 p.2 })

/-- `schema_cache_addCollection(otherCollection)`: `E_POINTER` on a null
argument; otherwise `xmlHashScan` runs `cache_copy` over the other table in
scan order.  The other collection is never mutated. -/
def schema_cache_addCollection (st : Store) (This : schema_cache)
    (That? : Option schema_cache) : Store × schema_cache × HRESULT :=
  match That? with
  | none => (st, This, HRESULT.E_POINTER)
  | some That =>
    let q := That.cache.foldl cache_copy (st, This)
    (q.1, q.2, HRESULT.S_OK)

/-- `SchemaCache_create`: a fresh empty table with facade count 1, alongside
an empty entry store. -/
def SchemaCache_create : Store × schema_cache :=
  ({ entries := [], freed := [], nextId := 0 }, { cache := [], ref := 1 })

/-- Keys of the table, in scan order. -/
def keys (c : List (String × Nat)) : List String :=
  c.map (fun p => p.1)

/-- Table well-formedness: at most one entry per key (libxml2's
`xmlHashAddEntry` refuses duplicates, and `schema_cache_add` removes before
inserting, so every reachable table satisfies this). -/
@[reducible] def KeysNodup (c : List (String × Nat)) : Prop :=
  (keys c).Nodup

/-- Store well-formedness: live identifiers are distinct and below the
allocation counter. -/
@[reducible] def StoreWF (st : Store) : Prop :=
  (st.entries.map (fun p => p.1)).Nodup ∧ ∀ p ∈ st.entries, p.1 < st.nextId

theorem xmlHashLookup_cons (p : String × Nat) (c : List (String × Nat))
    (k : String) :
    xmlHashLookup (p :: c) k = if p.1 = k then some p.2 else xmlHashLookup c k := by
  unfold xmlHashLookup
  by_cases h : p.1 = k
  · rw [List.find?_cons_of_pos _ (by simpa using h), if_pos h]
    rfl
  · rw [List.find?_cons_of_neg _ (by simpa using h), if_neg h]

theorem xmlHashLookup_eq_none {c : List (String × Nat)} {name : String} :
    xmlHashLookup c name = none ↔ name ∉ keys c := by
  unfold xmlHashLookup keys
  rw [Option.map_eq_none', List.find?_eq_none]
  simp only [decide_eq_true_eq]
  constructor
  · intro h hmem
    rcases List.mem_map.1 hmem with ⟨p, hp, hpk⟩
    exact h p hp hpk
  · intro h p hp heq
    exact h (List.mem_map.2 ⟨p, hp, heq⟩)

theorem xmlHashLookup_mem {c : List (String × Nat)} {name : String} {id : Nat}
    (h : xmlHashLookup c name = some id) : (name, id) ∈ c := by
  unfold xmlHashLookup at h
  rcases Option.map_eq_some'.1 h with ⟨p, hp, hid⟩
  have hmem := List.mem_of_find?_eq_some hp
  have hkey : p.1 = name := by
    have := List.find?_some hp
    simpa using this
  have : p = (name, id) := by
    cases p
    simp_all
  simpa [this] using hmem

theorem hashRemoveKey_sublist (c : List (String × Nat)) (name : String) :
    (hashRemoveKey c name).Sublist c := by
  induction c with
  | nil => simp [hashRemoveKey]
  | cons p rest ih =>
    by_cases h : p.1 = name
    · simp only [hashRemoveKey, if_pos h]
      exact List.sublist_cons_self p rest
    · simp only [hashRemoveKey, if_neg h]
      exact ih.cons₂ p

theorem hashRemoveKey_of_not_mem {c : List (String × Nat)} {name : String}
    (h : name ∉ keys c) : hashRemoveKey c name = c := by
  induction c with
  | nil => rfl
  | cons p rest ih =>
    have h1 : ¬ p.1 = name := by
      intro hk
      exact h (by simp [keys, hk])
    have h2 : name ∉ keys rest := by
      intro hk
      exact h (by simp [keys] at hk ⊢; exact Or.inr hk)
    simp [hashRemoveKey, h1, ih h2]

theorem keysNodup_hashRemoveKey {c : List (String × Nat)} (name : String)
    (h : KeysNodup c) : KeysNodup (hashRemoveKey c name) := by
  unfold KeysNodup keys at h ⊢
  exact List.Nodup.sublist ((hashRemoveKey_sublist c name).map (fun p => p.1)) h

theorem not_mem_keys_hashRemoveKey {c : List (String × Nat)} {name : String}
    (h : KeysNodup c) : name ∉ keys (hashRemoveKey c name) := by
  unfold KeysNodup keys at h
  unfold keys
  induction c with
  | nil => simp [hashRemoveKey]
  | cons p rest ih =>
    simp only [List.map_cons, List.nodup_cons] at h
    by_cases hk : p.1 = name
    · simp only [hashRemoveKey, if_pos hk]
      exact hk ▸ h.1
    · simp only [hashRemoveKey, if_neg hk, List.map_cons, List.mem_cons]
      rintro (h1 | h2)
      · exact hk h1.symm
      · exact ih h.2 h2

theorem xmlHashLookup_hashRemoveKey_ne {c : List (String × Nat)}
    {name k : String} (h : ¬ k = name) :
    xmlHashLookup (hashRemoveKey c name) k = xmlHashLookup c k := by
  induction c with
  | nil => rfl
  | cons p rest ih =>
    simp only [hashRemoveKey]
    by_cases hk : p.1 = name
    · rw [if_pos hk, xmlHashLookup_cons]
      have hpk : ¬ p.1 = k := fun hc => h (hc ▸ hk)
      rw [if_neg hpk]
    · rw [if_neg hk, xmlHashLookup_cons, xmlHashLookup_cons, ih]

theorem length_hashRemoveKey_of_mem {c : List (String × Nat)} {name : String}
    (h : name ∈ keys c) : (hashRemoveKey c name).length + 1 = c.length := by
  induction c with
  | nil => simp [keys] at h
  | cons p rest ih =>
    by_cases hk : p.1 = name
    · simp [hashRemoveKey, hk]
    · have h2 : name ∈ keys rest := by
        rcases List.mem_cons.1 h with h1 | h1
        · exact absurd h1.symm hk
        · exact h1
      simp only [hashRemoveKey, if_neg hk, List.length_cons, ih h2]

theorem find?_map_update (e : List (Nat × cache_entry)) (id j : Nat)
    (f : cache_entry → cache_entry) :
    (e.map (fun q => if q.1 = id then (q.1, f q.2) else q)).find?
        (fun p => p.1 = j) =
      if j = id then
        (e.find? (fun p => p.1 = j)).map (fun p => (p.1, f p.2))
      else e.find? (fun p => p.1 = j) := by
  induction e with
  | nil => by_cases h : j = id <;> simp [h]
  | cons p rest ih =>
    by_cases hp : p.1 = id
    · by_cases hj : j = id
      · have hpj : p.1 = j := by rw [hp, hj]
        simp only [List.map_cons, if_pos hp]
        rw [List.find?_cons_of_pos _ (by simpa using hpj),
            List.find?_cons_of_pos _ (by simpa using hpj), if_pos hj]
        rfl
      · have hpj : ¬ p.1 = j := by
          rw [hp]
          exact fun hc => hj hc.symm
        simp only [List.map_cons, if_pos hp]
        rw [List.find?_cons_of_neg _ (by simpa using hpj),
            List.find?_cons_of_neg _ (by simpa using hpj), ih, if_neg hj]
    · by_cases hpj : p.1 = j
      · by_cases hj : j = id
        · exact absurd (hpj.trans hj) hp
        · simp only [List.map_cons, if_neg hp]
          rw [List.find?_cons_of_pos _ (by simpa using hpj),
              List.find?_cons_of_pos _ (by simpa using hpj), if_neg hj]
      · simp only [List.map_cons, if_neg hp]
        rw [List.find?_cons_of_neg _ (by simpa using hpj),
            List.find?_cons_of_neg _ (by simpa using hpj), ih]

theorem lookupEntry_store_add_ref (st : Store) (id j : Nat) :
    lookupEntry (store_add_ref st id) j =
      if j = id then (lookupEntry st j).map cache_entry_add_ref
      else lookupEntry st j := by
  unfold lookupEntry store_add_ref
  simp only [find?_map_update]
  by_cases h : j = id
  · rw [if_pos h, if_pos h]
    cases st.entries.find? (fun p => p.1 = j) <;> rfl
  · rw [if_neg h, if_neg h]

theorem store_add_ref_freed (st : Store) (id : Nat) :
    (store_add_ref st id).freed = st.freed := rfl

theorem store_add_ref_nextId (st : Store) (id : Nat) :
    (store_add_ref st id).nextId = st.nextId := rfl

theorem store_add_ref_ids (st : Store) (id : Nat) :
    (store_add_ref st id).entries.map (fun p => p.1) =
      st.entries.map (fun p => p.1) := by
  unfold store_add_ref
  simp only [List.map_map]
  apply List.map_congr_left
  intro q _
  by_cases h : q.1 = id <;> simp [h]

theorem storeWF_store_add_ref {st : Store} (id : Nat) (h : StoreWF st) :
    StoreWF (store_add_ref st id) := by
  obtain ⟨h1, h2⟩ := h
  constructor
  · rw [store_add_ref_ids]
    exact h1
  · intro p hp
    unfold store_add_ref at hp
    simp only [List.mem_map] at hp
    rcases hp with ⟨q, hq, hqe⟩
    rw [store_add_ref_nextId]
    by_cases hqi : q.1 = id
    · rw [if_pos hqi] at hqe
      rw [← hqe]
      exact h2 q hq
    · rw [if_neg hqi] at hqe
      rw [← hqe]
      exact h2 q hq

theorem find?_filter_ne (e : List (Nat × cache_entry)) (id j : Nat)
    (h : ¬ j = id) :
    (e.filter (fun q => ¬ q.1 = id)).find? (fun p => p.1 = j) =
      e.find? (fun p => p.1 = j) := by
  induction e with
  | nil => rfl
  | cons q rest ih =>
    by_cases hq : q.1 = id
    · have hqj : ¬ q.1 = j := by
        rw [hq]
        exact fun hc => h hc.symm
      rw [List.filter_cons, if_neg (by simpa using hq),
          List.find?_cons_of_neg _ (by simpa using hqj), ih]
    · rw [List.filter_cons, if_pos (by simpa using hq)]
      by_cases hqj : q.1 = j
      · rw [List.find?_cons_of_pos _ (by simpa using hqj),
            List.find?_cons_of_pos _ (by simpa using hqj)]
      · rw [List.find?_cons_of_neg _ (by simpa using hqj),
            List.find?_cons_of_neg _ (by simpa using hqj), ih]

theorem find?_filter_self (e : List (Nat × cache_entry)) (id : Nat) :
    (e.filter (fun q => ¬ q.1 = id)).find? (fun p => p.1 = id) = none := by
  rw [List.find?_eq_none]
  intro p hp
  have := (List.mem_filter.1 hp).2
  simpa using this

theorem ids_map_update (e : List (Nat × cache_entry)) (id : Nat)
    (f : cache_entry → cache_entry) :
    (e.map (fun q => if q.1 = id then (q.1, f q.2) else q)).map (fun p => p.1) =
      e.map (fun p => p.1) := by
  simp only [List.map_map]
  apply List.map_congr_left
  intro q _
  by_cases h : q.1 = id <;> simp [h]

theorem find?_map_setref (e : List (Nat × cache_entry)) (id j : Nat) (r : Int) :
    (e.map (fun q => if q.1 = id then (q.1, { q.2 with ref := r }) else q)).find?
        (fun p => p.1 = j) =
      if j = id then
        (e.find? (fun p => p.1 = j)).map (fun p => (p.1, { p.2 with ref := r }))
      else e.find? (fun p => p.1 = j) :=
  find?_map_update e id j (fun x => { x with ref := r })

theorem ids_map_setref (e : List (Nat × cache_entry)) (id : Nat) (r : Int) :
    ((e.map (fun q => if q.1 = id then (q.1, { q.2 with ref := r }) else q)).map
        (fun p => p.1)) =
      e.map (fun p => p.1) :=
  ids_map_update e id (fun x => { x with ref := r })

theorem lookupEntry_mk (entries : List (Nat × cache_entry)) (freed : List Nat)
    (nextId : Nat) (id : Nat) :
    lookupEntry { entries := entries, freed := freed, nextId := nextId } id =
      (entries.find? (fun p => p.1 = id)).map (fun p => p.2) := rfl

theorem cache_free_of_none {st : Store} {id : Nat}
    (h : lookupEntry st id = none) : cache_free st id = st := by
  have h' : st.entries.find? (fun p => p.1 = id) = none := by
    unfold lookupEntry at h
    exact Option.map_eq_none'.1 h
  unfold cache_free
  rw [h']

theorem cache_free_eq_of_find {st : Store} {id : Nat} {p : Nat × cache_entry}
    (hp : st.entries.find? (fun q => q.1 = id) = some p) :
    cache_free st id =
      if (cache_entry_release p.2).1 = 0 then
        { st with entries := st.entries.filter (fun q => ¬ q.1 = id),
                  freed := st.freed ++ [id] }
      else
        { st with entries := st.entries.map (fun q =>
            if q.1 = id then (q.1, { q.2 with ref := (cache_entry_release p.2).1 }) else q) } := by
  unfold cache_free
  rw [hp]

theorem cache_free_spec_free {st : Store} {id : Nat} {e : cache_entry}
    (h : lookupEntry st id = some e) (h1 : e.ref = 1) :
    (cache_free st id).freed = st.freed ++ [id] ∧
    lookupEntry (cache_free st id) id = none ∧
    (∀ j, ¬ j = id → lookupEntry (cache_free st id) j = lookupEntry st j) ∧
    (cache_free st id).nextId = st.nextId := by
  rcases Option.map_eq_some'.1 h with ⟨p, hp, hpe⟩
  have hr : (cache_entry_release p.2).1 = 0 := by
    unfold cache_entry_release
    rw [hpe, h1]
    rfl
  rw [cache_free_eq_of_find hp, if_pos hr]
  refine ⟨rfl, ?_, ?_, rfl⟩
  · rw [lookupEntry_mk, find?_filter_self]
    rfl
  · intro j hj
    rw [lookupEntry_mk, find?_filter_ne _ _ _ hj]
    rfl

theorem cache_free_spec_dec {st : Store} {id : Nat} {e : cache_entry}
    (h : lookupEntry st id = some e) (h1 : ¬ e.ref - 1 = 0) :
    (cache_free st id).freed = st.freed ∧
    lookupEntry (cache_free st id) id = some { e with ref := e.ref - 1 } ∧
    (∀ j, ¬ j = id → lookupEntry (cache_free st id) j = lookupEntry st j) ∧
    (cache_free st id).nextId = st.nextId ∧
    (cache_free st id).entries.map (fun p => p.1) =
      st.entries.map (fun p => p.1) := by
  rcases Option.map_eq_some'.1 h with ⟨p, hp, hpe⟩
  have hr : (cache_entry_release p.2).1 = p.2.ref - 1 := rfl
  have h1' : ¬ (cache_entry_release p.2).1 = 0 := by
    rw [hr, hpe]
    exact h1
  rw [cache_free_eq_of_find hp, if_neg h1']
  refine ⟨rfl, ?_, ?_, rfl, ?_⟩
  · rw [lookupEntry_mk, find?_map_setref, if_pos rfl, hp]
    simp only [Option.map_some']
    show some { p.2 with ref := (cache_entry_release p.2).1 } =
      some { e with ref := e.ref - 1 }
    rw [hr, hpe]
  · intro j hj
    rw [lookupEntry_mk, find?_map_setref, if_neg hj]
    rfl
  · show ((st.entries.map (fun q =>
      if q.1 = id then (q.1, { q.2 with ref := (cache_entry_release p.2).1 }) else q)).map
        (fun p => p.1)) = st.entries.map (fun p => p.1)
    exact ids_map_setref st.entries id _

theorem storeWF_cache_free {st : Store} (id : Nat) (h : StoreWF st) :
    StoreWF (cache_free st id) := by
  obtain ⟨h1, h2⟩ := h
  cases hf : st.entries.find? (fun p => p.1 = id) with
  | none =>
    have : cache_free st id = st := by
      unfold cache_free
      rw [hf]
    rw [this]
    exact ⟨h1, h2⟩
  | some p =>
    rw [cache_free_eq_of_find hf]
    by_cases hr : (cache_entry_release p.2).1 = 0
    · rw [if_pos hr]
      refine ⟨?_, ?_⟩
      · show ((st.entries.filter (fun q => ¬ q.1 = id)).map (fun p => p.1)).Nodup
        exact List.Nodup.sublist
          (List.Sublist.map (fun p => p.1) (List.filter_sublist st.entries)) h1
      · intro q hq
        show q.1 < st.nextId
        exact h2 q (List.mem_of_mem_filter hq)
    · rw [if_neg hr]
      refine ⟨?_, ?_⟩
      · show ((st.entries.map (fun q =>
          if q.1 = id then (q.1, { q.2 with ref := (cache_entry_release p.2).1 }) else q)).map
            (fun p => p.1)).Nodup
        rw [ids_map_setref]
        exact h1
      · intro q hq
        show q.1 < st.nextId
        have hq' : q ∈ st.entries.map (fun q =>
          if q.1 = id then (q.1, { q.2 with ref := (cache_entry_release p.2).1 }) else q) := hq
        rcases List.mem_map.1 hq' with ⟨q', hq'', hqe⟩
        by_cases hqi : q'.1 = id
        · rw [if_pos hqi] at hqe
          rw [← hqe]
          exact h2 q' hq''
        · rw [if_neg hqi] at hqe
          rw [← hqe]
          exact h2 q' hq''

theorem keys_any_iff {c : List (String × Nat)} {name : String} :
    (c.any (fun p => p.1 = name)) = true ↔ name ∈ keys c := by
  simp [List.any_eq_true, keys, List.mem_map]

theorem xmlHashAddEntry_of_not_mem {c : List (String × Nat)} {name : String}
    (id : Nat) (h : name ∉ keys c) :
    xmlHashAddEntry c name id = c ++ [(name, id)] := by
  unfold xmlHashAddEntry
  rw [if_neg]
  intro hc
  exact h (keys_any_iff.1 hc)

theorem xmlHashLookup_append_self {c : List (String × Nat)} {name : String}
    (id : Nat) (h : name ∉ keys c) :
    xmlHashLookup (c ++ [(name, id)]) name = some id := by
  have h0 : List.find? (fun p => p.1 = name) c = none :=
    Option.map_eq_none'.1 (xmlHashLookup_eq_none.2 h)
  unfold xmlHashLookup
  rw [List.find?_append, h0, Option.none_or,
      List.find?_cons_of_pos _ (by simp)]
  rfl

theorem xmlHashLookup_append_ne {c : List (String × Nat)} {name k : String}
    (id : Nat) (h : ¬ k = name) :
    xmlHashLookup (c ++ [(name, id)]) k = xmlHashLookup c k := by
  have h2 : List.find? (fun p => p.1 = k) [(name, id)] = none := by
    rw [List.find?_eq_none]
    intro p hp
    rw [List.mem_singleton] at hp
    subst hp
    simpa using fun hc => h hc.symm
  unfold xmlHashLookup
  rw [List.find?_append, h2, Option.or_none]

/-- Collection/store coupling: every identifier stored in the table was
allocated (so it is below the allocation counter). -/
@[reducible] def CacheIdsBounded (This : schema_cache) (st : Store) : Prop :=
  ∀ p ∈ This.cache, p.2 < st.nextId

theorem keysNodup_append {c : List (String × Nat)} {name : String} (id : Nat)
    (hK : KeysNodup c) (h : name ∉ keys c) :
    KeysNodup (c ++ [(name, id)]) := by
  unfold KeysNodup keys at *
  rw [List.map_append, List.nodup_append]
  refine ⟨hK, List.nodup_singleton name, ?_⟩
  intro a ha hb
  rw [List.map_singleton, List.mem_singleton] at hb
  rw [hb] at ha
  exact h ha

theorem find?_entries_append_ne (entries : List (Nat × cache_entry))
    {id j : Nat} (e : cache_entry) (h : ¬ j = id) :
    (entries ++ [(id, e)]).find? (fun p => p.1 = j) =
      entries.find? (fun p => p.1 = j) := by
  have h2 : List.find? (fun p => p.1 = j) [(id, e)] = none := by
    rw [List.find?_eq_none]
    intro p hp
    rw [List.mem_singleton] at hp
    subst hp
    simpa using fun hc => h hc.symm
  rw [List.find?_append, h2, Option.or_none]

theorem find?_entries_nextId_none {st : Store} (hW : StoreWF st) :
    st.entries.find? (fun p => p.1 = st.nextId) = none := by
  rw [List.find?_eq_none]
  intro p hp
  simpa using Nat.ne_of_lt (hW.2 p hp)

theorem find?_entries_append_self {entries : List (Nat × cache_entry)}
    {id : Nat} (e : cache_entry)
    (h : entries.find? (fun p => p.1 = id) = none) :
    (entries ++ [(id, e)]).find? (fun p => p.1 = id) = some (id, e) := by
  rw [List.find?_append, h, Option.none_or, List.find?_cons_of_pos _ (by simp)]

theorem storeWF_append {st : Store} (e : cache_entry) (hW : StoreWF st) :
    StoreWF { st with entries := st.entries ++ [(st.nextId, e)],
                      nextId := st.nextId + 1 } := by
  constructor
  · show ((st.entries ++ [(st.nextId, e)]).map (fun p => p.1)).Nodup
    rw [List.map_append, List.nodup_append]
    refine ⟨hW.1, by simp, ?_⟩
    intro a ha hb
    rw [List.map_singleton, List.mem_singleton] at hb
    rcases List.mem_map.1 ha with ⟨p, hp, hpa⟩
    have := hW.2 p hp
    rw [hpa, hb] at this
    exact Nat.lt_irrefl _ this
  · intro p hp
    show p.1 < st.nextId + 1
    rcases List.mem_append.1 hp with h1 | h1
    · exact Nat.lt_succ_of_lt (hW.2 p h1)
    · rw [List.mem_singleton] at h1
      rw [h1]
      exact Nat.lt_succ_self _

theorem xmlHashRemoveEntry_of_none {st : Store} {c : List (String × Nat)}
    {name : String} (h : xmlHashLookup c name = none) :
    xmlHashRemoveEntry st c name = (st, c) := by
  unfold xmlHashRemoveEntry
  rw [h]

theorem xmlHashRemoveEntry_of_some {st : Store} {c : List (String × Nat)}
    {name : String} {id : Nat} (h : xmlHashLookup c name = some id) :
    xmlHashRemoveEntry st c name = (cache_free st id, hashRemoveKey c name) := by
  unfold xmlHashRemoveEntry
  rw [h]

theorem cache_insert_def (st : Store) (This : schema_cache) (uri : String)
    (entry : cache_entry) :
    cache_insert st This uri entry =
      (let st1 : Store := { st with
          entries := st.entries ++ [(st.nextId, cache_entry_add_ref entry)],
          nextId := st.nextId + 1 }
       let p := xmlHashRemoveEntry st1 This.cache uri
       (p.1, { This with cache := xmlHashAddEntry p.2 uri st.nextId })) := rfl

theorem cache_free_nextId (st : Store) (id : Nat) :
    (cache_free st id).nextId = st.nextId := by
  unfold cache_free
  cases st.entries.find? (fun p => p.1 = id) with
  | none => rfl
  | some p =>
    dsimp only
    split <;> rfl

theorem lookupEntry_cache_free_ne (st : Store) {id j : Nat} (h : ¬ j = id) :
    lookupEntry (cache_free st id) j = lookupEntry st j := by
  cases hf : st.entries.find? (fun p => p.1 = id) with
  | none =>
    have : cache_free st id = st := by
      unfold cache_free
      rw [hf]
    rw [this]
  | some p =>
    rw [cache_free_eq_of_find hf]
    by_cases hr : (cache_entry_release p.2).1 = 0
    · rw [if_pos hr, lookupEntry_mk, find?_filter_ne _ _ _ h]
      rfl
    · rw [if_neg hr, lookupEntry_mk, find?_map_setref, if_neg h]
      rfl

theorem cache_insert_fst (st : Store) (This : schema_cache) (uri : String)
    (entry : cache_entry) :
    (cache_insert st This uri entry).1 =
      (xmlHashRemoveEntry
        { st with entries := st.entries ++ [(st.nextId, cache_entry_add_ref entry)],
                  nextId := st.nextId + 1 } This.cache uri).1 := rfl

theorem cache_insert_snd (st : Store) (This : schema_cache) (uri : String)
    (entry : cache_entry) (hK : KeysNodup This.cache) :
    (cache_insert st This uri entry).2.cache =
      hashRemoveKey This.cache uri ++ [(uri, st.nextId)] := by
  show xmlHashAddEntry
      (xmlHashRemoveEntry
        { st with entries := st.entries ++ [(st.nextId, cache_entry_add_ref entry)],
                  nextId := st.nextId + 1 } This.cache uri).2 uri st.nextId =
    hashRemoveKey This.cache uri ++ [(uri, st.nextId)]
  cases hl : xmlHashLookup This.cache uri with
  | none =>
    have hnm : uri ∉ keys This.cache := xmlHashLookup_eq_none.1 hl
    rw [xmlHashRemoveEntry_of_none hl, hashRemoveKey_of_not_mem hnm]
    exact xmlHashAddEntry_of_not_mem _ hnm
  | some id0 =>
    rw [xmlHashRemoveEntry_of_some hl]
    exact xmlHashAddEntry_of_not_mem _ (not_mem_keys_hashRemoveKey hK)

theorem cache_insert_lookup_self (st : Store) (This : schema_cache)
    (uri : String) (entry : cache_entry) (hK : KeysNodup This.cache) :
    xmlHashLookup (cache_insert st This uri entry).2.cache uri =
      some st.nextId := by
  rw [cache_insert_snd st This uri entry hK]
  exact xmlHashLookup_append_self _ (not_mem_keys_hashRemoveKey hK)

theorem cache_insert_lookup_ne (st : Store) (This : schema_cache)
    (uri : String) (entry : cache_entry) (hK : KeysNodup This.cache)
    {k : String} (hk : ¬ k = uri) :
    xmlHashLookup (cache_insert st This uri entry).2.cache k =
      xmlHashLookup This.cache k := by
  rw [cache_insert_snd st This uri entry hK, xmlHashLookup_append_ne _ hk,
      xmlHashLookup_hashRemoveKey_ne hk]

theorem cache_insert_keysNodup (st : Store) (This : schema_cache)
    (uri : String) (entry : cache_entry) (hK : KeysNodup This.cache) :
    KeysNodup (cache_insert st This uri entry).2.cache := by
  rw [cache_insert_snd st This uri entry hK]
  exact keysNodup_append _ (keysNodup_hashRemoveKey uri hK)
    (not_mem_keys_hashRemoveKey hK)

theorem cache_insert_nextId (st : Store) (This : schema_cache) (uri : String)
    (entry : cache_entry) :
    (cache_insert st This uri entry).1.nextId = st.nextId + 1 := by
  rw [cache_insert_fst]
  cases hl : xmlHashLookup This.cache uri with
  | none => rw [xmlHashRemoveEntry_of_none hl]
  | some id0 =>
    rw [xmlHashRemoveEntry_of_some hl]
    exact cache_free_nextId _ id0

theorem cache_insert_storeWF (st : Store) (This : schema_cache) (uri : String)
    (entry : cache_entry) (hW : StoreWF st) :
    StoreWF (cache_insert st This uri entry).1 := by
  rw [cache_insert_fst]
  have hW1 := storeWF_append (cache_entry_add_ref entry) hW
  cases hl : xmlHashLookup This.cache uri with
  | none =>
    rw [xmlHashRemoveEntry_of_none hl]
    exact hW1
  | some id0 =>
    rw [xmlHashRemoveEntry_of_some hl]
    exact storeWF_cache_free id0 hW1

theorem cache_insert_lookup_nextId (st : Store) (This : schema_cache)
    (uri : String) (entry : cache_entry) (hW : StoreWF st)
    (hB : CacheIdsBounded This st) :
    lookupEntry (cache_insert st This uri entry).1 st.nextId =
      some (cache_entry_add_ref entry) := by
  have hself : lookupEntry
      { st with entries := st.entries ++ [(st.nextId, cache_entry_add_ref entry)],
                nextId := st.nextId + 1 } st.nextId =
      some (cache_entry_add_ref entry) := by
    rw [lookupEntry_mk, find?_entries_append_self _ (find?_entries_nextId_none hW)]
    rfl
  rw [cache_insert_fst]
  cases hl : xmlHashLookup This.cache uri with
  | none =>
    rw [xmlHashRemoveEntry_of_none hl]
    exact hself
  | some id0 =>
    rw [xmlHashRemoveEntry_of_some hl]
    have hne : ¬ st.nextId = id0 := by
      have := hB _ (xmlHashLookup_mem hl)
      exact fun hc => absurd (hc ▸ this) (Nat.lt_irrefl _)
    rw [lookupEntry_cache_free_ne _ hne]
    exact hself

theorem lookupEntry_append_ne {st : Store} (e : cache_entry) {j : Nat}
    (h : ¬ j = st.nextId) :
    lookupEntry { st with entries := st.entries ++ [(st.nextId, e)],
                          nextId := st.nextId + 1 } j = lookupEntry st j := by
  rw [lookupEntry_mk, find?_entries_append_ne _ _ h]
  rfl

theorem cache_insert_freed_of_absent (st : Store) (This : schema_cache)
    (uri : String) (entry : cache_entry)
    (hl : xmlHashLookup This.cache uri = none) :
    (cache_insert st This uri entry).1.freed = st.freed := by
  rw [cache_insert_fst, xmlHashRemoveEntry_of_none hl]

theorem cache_insert_replaced_released (st : Store) (This : schema_cache)
    (uri : String) (entry : cache_entry) {id0 : Nat} {e0 : cache_entry}
    (hB : CacheIdsBounded This st)
    (hl : xmlHashLookup This.cache uri = some id0)
    (he0 : lookupEntry st id0 = some e0) (h1 : e0.ref = 1) :
    (cache_insert st This uri entry).1.freed = st.freed ++ [id0] ∧
    lookupEntry (cache_insert st This uri entry).1 id0 = none := by
  have hne : ¬ id0 = st.nextId := by
    have := hB _ (xmlHashLookup_mem hl)
    exact Nat.ne_of_lt this
  have he1 : lookupEntry
      { st with entries := st.entries ++ [(st.nextId, cache_entry_add_ref entry)],
                nextId := st.nextId + 1 } id0 = some e0 := by
    rw [lookupEntry_append_ne _ hne]
    exact he0
  rw [cache_insert_fst, xmlHashRemoveEntry_of_some hl]
  have hs := cache_free_spec_free he1 h1
  exact ⟨hs.1, hs.2.1⟩

theorem cache_free_entries_sub (st : Store) (id : Nat) :
    ∀ pe ∈ (cache_free st id).entries, pe.1 ∈ st.entries.map (fun p => p.1) := by
  intro pe hpe
  cases hf : st.entries.find? (fun p => p.1 = id) with
  | none =>
    have heq : cache_free st id = st := by
      unfold cache_free
      rw [hf]
    rw [heq] at hpe
    exact List.mem_map.2 ⟨pe, hpe, rfl⟩
  | some p =>
    rw [cache_free_eq_of_find hf] at hpe
    by_cases hr : (cache_entry_release p.2).1 = 0
    · rw [if_pos hr] at hpe
      have hpe' : pe ∈ st.entries.filter (fun q => ¬ q.1 = id) := hpe
      exact List.mem_map.2 ⟨pe, List.mem_of_mem_filter hpe', rfl⟩
    · rw [if_neg hr] at hpe
      have hpe' : pe ∈ st.entries.map (fun q =>
        if q.1 = id then (q.1, { q.2 with ref := (cache_entry_release p.2).1 }) else q) := hpe
      rcases List.mem_map.1 hpe' with ⟨q', hq', hqe⟩
      by_cases hqi : q'.1 = id
      · rw [if_pos hqi] at hqe
        rw [← hqe]
        exact List.mem_map.2 ⟨q', hq', rfl⟩
      · rw [if_neg hqi] at hqe
        rw [← hqe]
        exact List.mem_map.2 ⟨q', hq', rfl⟩

theorem xmlHashRemoveEntry_entries_sub (st : Store) (c : List (String × Nat))
    (name : String) :
    ∀ pe ∈ (xmlHashRemoveEntry st c name).1.entries,
      pe.1 ∈ st.entries.map (fun p => p.1) := by
  intro pe hpe
  cases hl : xmlHashLookup c name with
  | none =>
    rw [xmlHashRemoveEntry_of_none hl] at hpe
    exact List.mem_map.2 ⟨pe, hpe, rfl⟩
  | some id =>
    rw [xmlHashRemoveEntry_of_some hl] at hpe
    exact cache_free_entries_sub st id pe hpe

theorem cache_free_entries_shape (st : Store) (id : Nat) :
    ∀ pe ∈ (cache_free st id).entries,
      pe ∈ st.entries ∨
        (pe.1 = id ∧ pe.1 ∈ st.entries.map (fun p => p.1)) := by
  intro pe hpe
  cases hf : st.entries.find? (fun p => p.1 = id) with
  | none =>
    have heq : cache_free st id = st := by
      unfold cache_free
      rw [hf]
    rw [heq] at hpe
    exact Or.inl hpe
  | some p =>
    rw [cache_free_eq_of_find hf] at hpe
    by_cases hr : (cache_entry_release p.2).1 = 0
    · rw [if_pos hr] at hpe
      have hpe' : pe ∈ st.entries.filter (fun q => ¬ q.1 = id) := hpe
      exact Or.inl (List.mem_of_mem_filter hpe')
    · rw [if_neg hr] at hpe
      have hpe' : pe ∈ st.entries.map (fun q =>
        if q.1 = id then (q.1, { q.2 with ref := (cache_entry_release p.2).1 }) else q) := hpe
      rcases List.mem_map.1 hpe' with ⟨q', hq', hqe⟩
      by_cases hqi : q'.1 = id
      · rw [if_pos hqi] at hqe
        refine Or.inr ⟨?_, ?_⟩
        · rw [← hqe]
          exact hqi
        · rw [← hqe]
          show q'.1 ∈ st.entries.map (fun p => p.1)
          exact List.mem_map.2 ⟨q', hq', rfl⟩
      · rw [if_neg hqi] at hqe
        rw [← hqe]
        exact Or.inl hq'

theorem cache_insert_entries_shape (st : Store) (This : schema_cache)
    (uri : String) (entry : cache_entry) (hB : CacheIdsBounded This st) :
    ∀ pe ∈ (cache_insert st This uri entry).1.entries,
      pe.1 ∈ st.entries.map (fun p => p.1) ∨ pe.2 = cache_entry_add_ref entry := by
  intro pe hpe
  rw [cache_insert_fst] at hpe
  have factA : ∀ qe : Nat × cache_entry,
      qe ∈ st.entries ++ [(st.nextId, cache_entry_add_ref entry)] →
      qe.1 ∈ st.entries.map (fun p => p.1) ∨ qe.2 = cache_entry_add_ref entry := by
    intro qe hqe
    rcases List.mem_append.1 hqe with h1 | h1
    · exact Or.inl (List.mem_map.2 ⟨qe, h1, rfl⟩)
    · rw [List.mem_singleton] at h1
      rw [h1]
      exact Or.inr rfl
  cases hl : xmlHashLookup This.cache uri with
  | none =>
    rw [xmlHashRemoveEntry_of_none hl] at hpe
    exact factA pe hpe
  | some id0 =>
    rw [xmlHashRemoveEntry_of_some hl] at hpe
    have hne : ¬ id0 = st.nextId :=
      Nat.ne_of_lt (hB _ (xmlHashLookup_mem hl))
    rcases cache_free_entries_shape _ id0 pe hpe with h1 | ⟨h1, h2⟩
    · exact factA pe h1
    · have h2' : pe.1 ∈ (st.entries ++ [(st.nextId, cache_entry_add_ref entry)]).map
        (fun p => p.1) := h2
      rw [List.map_append, List.mem_append] at h2'
      rcases h2' with h3 | h3
      · exact Or.inl h3
      · rw [List.map_singleton, List.mem_singleton] at h3
        exact absurd (h1 ▸ h3 : id0 = st.nextId) hne

theorem cache_insert_bounded (st : Store) (This : schema_cache) (uri : String)
    (entry : cache_entry) (hK : KeysNodup This.cache)
    (hB : CacheIdsBounded This st) :
    CacheIdsBounded (cache_insert st This uri entry).2
      (cache_insert st This uri entry).1 := by
  intro p hp
  rw [cache_insert_nextId]
  rw [cache_insert_snd st This uri entry hK, List.mem_append] at hp
  rcases hp with h1 | h1
  · have := hB p ((hashRemoveKey_sublist This.cache uri).subset h1)
    exact Nat.lt_succ_of_lt this
  · rw [List.mem_singleton] at h1
    rw [h1]
    exact Nat.lt_succ_self _

theorem cache_entry_from_url_ref {env : Env} {url : String} {e : cache_entry}
    (h : cache_entry_from_url env url = some e) : e.ref = 0 := by
  unfold cache_entry_from_url at h
  cases henv : env.compileFromUrl url with
  | none =>
    rw [henv] at h
    cases h
  | some sdoc =>
    rw [henv] at h
    injection h with h'
    rw [← h']

theorem cache_entry_from_xsd_doc_ref {env : Env} {doc : XmlDoc}
    {e : cache_entry} (h : cache_entry_from_xsd_doc env doc = some e) :
    e.ref = 0 := by
  unfold cache_entry_from_xsd_doc at h
  by_cases hc : env.compileFromDocument (xmlCopyDoc doc)
  · rw [if_pos hc] at h
    injection h with h'
    rw [← h']
  · rw [if_neg hc] at h
    cases h

theorem cache_entry_from_xdr_doc_ref (doc : XmlDoc) :
    (cache_entry_from_xdr_doc doc).ref = 0 := rfl

theorem schema_cache_add_null_eq (env : Env) (st : Store) (This : schema_cache)
    (uri : String) :
    schema_cache_add env st This uri VARIANT.VT_NULL =
      ((xmlHashRemoveEntry st This.cache uri).1,
       { This with cache := (xmlHashRemoveEntry st This.cache uri).2 },
       HRESULT.S_OK) := rfl

theorem schema_cache_add_bstr_eq (env : Env) (st : Store) (This : schema_cache)
    (uri url : String) :
    schema_cache_add env st This uri (VARIANT.VT_BSTR url) =
      (match cache_entry_from_url env url with
       | none => (st, This, HRESULT.E_FAIL)
       | some entry =>
         ((cache_insert st This uri entry).1, (cache_insert st This uri entry).2,
          HRESULT.S_OK)) := rfl

theorem schema_cache_add_dispatch_none_eq (env : Env) (st : Store)
    (This : schema_cache) (uri : String) :
    schema_cache_add env st This uri (VARIANT.VT_DISPATCH none) =
      (st, This, HRESULT.E_INVALIDARG) := rfl

theorem schema_cache_add_dispatch_some_eq (env : Env) (st : Store)
    (This : schema_cache) (uri : String) (doc : XmlDoc) :
    schema_cache_add env st This uri (VARIANT.VT_DISPATCH (some doc)) =
      (match (if schema_type_from_xmlDocPtr doc = SCHEMA_TYPE.XSD then
                cache_entry_from_xsd_doc env doc
              else if schema_type_from_xmlDocPtr doc = SCHEMA_TYPE.XDR then
                some (cache_entry_from_xdr_doc doc)
              else none) with
       | none => (st, This, HRESULT.E_FAIL)
       | some entry =>
         ((cache_insert st This uri entry).1, (cache_insert st This uri entry).2,
          HRESULT.S_OK)) := rfl

theorem schema_cache_add_other_eq (env : Env) (st : Store)
    (This : schema_cache) (uri : String) :
    schema_cache_add env st This uri VARIANT.VT_OTHER =
      (st, This, HRESULT.E_INVALIDARG) := rfl

theorem schema_cache_remove_eq (st : Store) (This : schema_cache)
    (uri : String) :
    schema_cache_remove st This uri =
      ((xmlHashRemoveEntry st This.cache uri).1,
       { This with cache := (xmlHashRemoveEntry st This.cache uri).2 },
       HRESULT.S_OK) := rfl

theorem schema_cache_add_success_shape {env : Env} {st : Store}
    {This : schema_cache} {uri : String} {v : VARIANT} {st' : Store}
    {c' : schema_cache}
    (h : schema_cache_add env st This uri v = (st', c', HRESULT.S_OK))
    (hv : ¬ v = VARIANT.VT_NULL) :
    ∃ entry, entry.ref = 0 ∧ st' = (cache_insert st This uri entry).1 ∧
      c' = (cache_insert st This uri entry).2 := by
  cases v with
  | VT_NULL => exact absurd rfl hv
  | VT_BSTR url =>
    rw [schema_cache_add_bstr_eq] at h
    cases hu : cache_entry_from_url env url with
    | none =>
      rw [hu] at h
      simp at h
    | some entry =>
      rw [hu] at h
      rw [Prod.mk.injEq, Prod.mk.injEq] at h
      exact ⟨entry, cache_entry_from_url_ref hu, h.1.symm, h.2.1.symm⟩
  | VT_DISPATCH doc? =>
    cases doc? with
    | none =>
      rw [schema_cache_add_dispatch_none_eq] at h
      simp at h
    | some doc =>
      rw [schema_cache_add_dispatch_some_eq] at h
      cases he : (if schema_type_from_xmlDocPtr doc = SCHEMA_TYPE.XSD then
          cache_entry_from_xsd_doc env doc
        else if schema_type_from_xmlDocPtr doc = SCHEMA_TYPE.XDR then
          some (cache_entry_from_xdr_doc doc)
        else none) with
      | none =>
        rw [he] at h
        simp at h
      | some entry =>
        rw [he] at h
        rw [Prod.mk.injEq, Prod.mk.injEq] at h
        refine ⟨entry, ?_, h.1.symm, h.2.1.symm⟩
        by_cases h1 : schema_type_from_xmlDocPtr doc = SCHEMA_TYPE.XSD
        · rw [if_pos h1] at he
          exact cache_entry_from_xsd_doc_ref he
        · rw [if_neg h1] at he
          by_cases h2 : schema_type_from_xmlDocPtr doc = SCHEMA_TYPE.XDR
          · rw [if_pos h2] at he
            injection he with he'
            rw [← he']
            exact cache_entry_from_xdr_doc_ref doc
          · rw [if_neg h2] at he
            cases he
  | VT_OTHER =>
    rw [schema_cache_add_other_eq] at h
    simp at h

theorem foldl_cache_index_neg (names : List String) (i : Int)
    (out : Option String) (h : i < 0) :
    (names.foldl cache_index (i, out)).2 = out := by
  induction names generalizing i out with
  | nil => rfl
  | cons n rest ih =>
    rw [List.foldl_cons]
    have hz : ¬ i = 0 := by omega
    show (rest.foldl cache_index (i - 1, if i = 0 then some n else out)).2 = out
    rw [if_neg hz]
    exact ih (i - 1) out (by omega)

theorem foldl_cache_index_get (names : List String) (i : Int)
    (out : Option String) (h0 : 0 ≤ i) (h1 : i < (names.length : Int)) :
    (names.foldl cache_index (i, out)).2 = names[i.toNat]? := by
  induction names generalizing i out with
  | nil => simp at h1; omega
  | cons n rest ih =>
    rw [List.foldl_cons]
    by_cases hz : i = 0
    · subst hz
      show (rest.foldl cache_index (0 - 1, if (0 : Int) = 0 then some n else out)).2 =
        (n :: rest)[(0 : Int).toNat]?
      rw [if_pos rfl, foldl_cache_index_neg rest _ _ (by omega)]
      rw [show (0 : Int).toNat = 0 from rfl, List.getElem?_cons_zero]
    · show (rest.foldl cache_index (i - 1, if i = 0 then some n else out)).2 =
        (n :: rest)[i.toNat]?
      rw [if_neg hz]
      have h0' : 0 ≤ i - 1 := by omega
      have h1' : i - 1 < (rest.length : Int) := by
        rw [List.length_cons] at h1
        omega
      rw [ih (i - 1) out h0' h1']
      have ht : i.toNat = (i - 1).toNat + 1 := by omega
      rw [ht, List.getElem?_cons_succ]

theorem cache_copy_eq (st : Store) (This : schema_cache) (p : String × Nat) :
    cache_copy (st, This) p =
      (match xmlHashLookup This.cache p.1 with
       | some _ => (st, This)
       | none =>
         (store_add_ref st p.2,
          { This with cache := xmlHashAddEntry This.cache p.1 p.2 })) := rfl

theorem foldl_cache_copy_char (that : List (String × Nat)) (st : Store)
    (This : schema_cache) (hNd : (that.map (fun p => p.1)).Nodup) :
    that.foldl cache_copy (st, This) =
      ((that.filter (fun p => (xmlHashLookup This.cache p.1).isNone)).foldl
         (fun s p => store_add_ref s p.2) st,
       { This with cache := This.cache ++
          that.filter (fun p => (xmlHashLookup This.cache p.1).isNone) }) := by
  induction that generalizing st This with
  | nil =>
    simp only [List.foldl_nil, List.filter_nil, List.append_nil]
  | cons p rest ih =>
    rw [List.map_cons, List.nodup_cons] at hNd
    rw [List.foldl_cons, cache_copy_eq]
    cases hl : xmlHashLookup This.cache p.1 with
    | some id =>
      have hpred : ((xmlHashLookup This.cache p.1).isNone) = false := by
        rw [hl]
        rfl
      have hfilter : (p :: rest).filter
          (fun q => (xmlHashLookup This.cache q.1).isNone) =
          rest.filter (fun q => (xmlHashLookup This.cache q.1).isNone) := by
        rw [List.filter_cons, hpred]
        rfl
      rw [hfilter]
      exact ih st This hNd.2
    | none =>
      have hnm : p.1 ∉ keys This.cache := xmlHashLookup_eq_none.1 hl
      have hpred : ((xmlHashLookup This.cache p.1).isNone) = true := by
        rw [hl]
        rfl
      have hfilter : (p :: rest).filter
          (fun q => (xmlHashLookup This.cache q.1).isNone) =
          p :: rest.filter (fun q => (xmlHashLookup This.cache q.1).isNone) := by
        rw [List.filter_cons, hpred]
        rfl
      have hadd : xmlHashAddEntry This.cache p.1 p.2 = This.cache ++ [p] := by
        rw [xmlHashAddEntry_of_not_mem _ hnm]
      rw [hadd, hfilter, List.foldl_cons]
      have hfc : rest.filter (fun q =>
          (xmlHashLookup (This.cache ++ [p]) q.1).isNone) =
        rest.filter (fun q => (xmlHashLookup This.cache q.1).isNone) := by
      -- removing a key that no tail pair carries leaves the filter unchanged
        apply List.filter_congr
        intro q hq
        have hne : ¬ q.1 = p.1 := by
          intro hc
          apply hNd.1
          rw [← hc]
          exact List.mem_map.2 ⟨q, hq, rfl⟩
        have hlq : xmlHashLookup (This.cache ++ [(p.1, p.2)]) q.1 =
            xmlHashLookup This.cache q.1 := xmlHashLookup_append_ne p.2 hne
        rw [show (This.cache ++ [p]) = (This.cache ++ [(p.1, p.2)]) from rfl, hlq]
      rw [ih (store_add_ref st p.2) { This with cache := This.cache ++ [p] } hNd.2,
          hfc]
      rw [show ({ This with cache := This.cache ++ [p] } : schema_cache).cache =
        This.cache ++ [p] from rfl]
      rw [List.append_assoc, List.singleton_append]

theorem xmlHashLookup_append_of_mem {c d : List (String × Nat)} {k : String}
    (h : k ∈ keys c) :
    xmlHashLookup (c ++ d) k = xmlHashLookup c k := by
  have hne : ¬ xmlHashLookup c k = none := fun hc =>
    (xmlHashLookup_eq_none.1 hc) h
  rcases Option.ne_none_iff_exists'.1 hne with ⟨id, hid⟩
  have hfind : c.find? (fun p => p.1 = k) ≠ none := by
    intro hc
    unfold xmlHashLookup at hid
    rw [hc] at hid
    cases hid
  rcases Option.ne_none_iff_exists'.1 hfind with ⟨p, hp⟩
  unfold xmlHashLookup
  rw [List.find?_append, hp]
  rfl

theorem xmlHashLookup_filter_of_nodup {that : List (String × Nat)}
    (f : String × Nat → Bool) {k : String} {id : Nat}
    (hNd : (that.map (fun p => p.1)).Nodup)
    (h : xmlHashLookup that k = some id) (hf : f (k, id) = true) :
    xmlHashLookup (that.filter f) k = some id := by
  induction that with
  | nil => cases h
  | cons q rest ih =>
    rw [List.map_cons, List.nodup_cons] at hNd
    by_cases hq : q.1 = k
    · have hqe : q = (k, id) := by
        rw [xmlHashLookup_cons, if_pos hq] at h
        injection h with h'
        cases q
        simp_all
      rw [List.filter_cons, hqe, hf]
      rw [show (if true = true then (k, id) :: rest.filter f else rest.filter f) =
        (k, id) :: rest.filter f from rfl]
      rw [xmlHashLookup_cons, if_pos (show ((k, id) : String × Nat).1 = k from rfl)]
    · rw [xmlHashLookup_cons, if_neg hq] at h
      have hrest := ih hNd.2 h
      rw [List.filter_cons]
      by_cases hfq : f q = true
      · rw [hfq]
        rw [show (if true = true then q :: rest.filter f else rest.filter f) =
          q :: rest.filter f from rfl]
        rw [xmlHashLookup_cons, if_neg hq]
        exact hrest
      · rw [Bool.not_eq_true] at hfq
        rw [hfq]
        rw [show (if false = true then q :: rest.filter f else rest.filter f) =
          rest.filter f from rfl]
        exact hrest

theorem lookupEntry_foldl_add_ref (l : List (String × Nat)) (st : Store)
    (id : Nat) (hNd : (l.map (fun p => p.2)).Nodup) :
    lookupEntry (l.foldl (fun s p => store_add_ref s p.2) st) id =
      if id ∈ l.map (fun p => p.2) then
        (lookupEntry st id).map cache_entry_add_ref
      else lookupEntry st id := by
  induction l generalizing st with
  | nil => simp
  | cons q rest ih =>
    rw [List.map_cons, List.nodup_cons] at hNd
    rw [List.foldl_cons, ih _ hNd.2]
    by_cases hq : id = q.2
    · have hnm : id ∉ rest.map (fun p => p.2) := by
        rw [hq]
        exact hNd.1
      rw [if_neg hnm, if_pos (by rw [List.map_cons, List.mem_cons]; exact Or.inl hq)]
      rw [lookupEntry_store_add_ref, if_pos hq]
    · by_cases hm : id ∈ rest.map (fun p => p.2)
      · rw [if_pos hm, if_pos (by rw [List.map_cons, List.mem_cons]; exact Or.inr hm)]
        rw [lookupEntry_store_add_ref, if_neg hq]
      · rw [if_neg hm, if_neg (by rw [List.map_cons, List.mem_cons]; push_neg; exact ⟨hq, hm⟩)]
        rw [lookupEntry_store_add_ref, if_neg hq]

theorem schema_cache_get_noslot (st : Store) (This : schema_cache)
    (uri : String) :
    schema_cache_get st This uri false = (st, HRESULT.E_POINTER, none) := rfl

theorem schema_cache_get_absent {st : Store} {This : schema_cache}
    {uri : String} (hl : xmlHashLookup This.cache uri = none) :
    schema_cache_get st This uri true = (st, HRESULT.S_OK, some none) := by
  unfold schema_cache_get
  rw [if_neg (by simp), hl]

theorem schema_cache_get_present {st : Store} {This : schema_cache}
    {uri : String} {id : Nat} {e : cache_entry}
    (hl : xmlHashLookup This.cache uri = some id)
    (he : lookupEntry st id = some e) :
    schema_cache_get st This uri true =
      (st, HRESULT.S_OK, some (some { doc := e.doc })) := by
  unfold schema_cache_get
  rw [if_neg (by simp), hl]
  show (match lookupEntry st id with
        | some entry => (st, HRESULT.S_OK, some (some ({ doc := entry.doc } : DocView)))
        | none => (st, HRESULT.S_OK, some none)) =
      (st, HRESULT.S_OK, some (some ({ doc := e.doc } : DocView)))
  rw [he]

theorem countP_key_le_one {c : List (String × Nat)} (uri : String)
    (hK : KeysNodup c) : c.countP (fun p => p.1 = uri) ≤ 1 := by
  unfold KeysNodup keys at hK
  induction c with
  | nil => simp
  | cons p rest ih =>
    rw [List.map_cons, List.nodup_cons] at hK
    rw [List.countP_cons]
    by_cases hp : p.1 = uri
    · have hz : rest.countP (fun q => q.1 = uri) = 0 := by
        rw [List.countP_eq_zero]
        intro q hq
        simp only [decide_eq_true_eq]
        intro hqc
        apply hK.1
        rw [hp, ← hqc]
        exact List.mem_map.2 ⟨q, hq, rfl⟩
      rw [hz]
      simp [hp]
    · have hrest := ih hK.2
      simp only [hp, decide_False, Bool.false_eq_true, if_false]
      omega

theorem keysNodup_schema_cache_add (env : Env) (st : Store)
    (This : schema_cache) (uri : String) (v : VARIANT)
    (hK : KeysNodup This.cache) :
    KeysNodup ((schema_cache_add env st This uri v).2.1).cache := by
  cases v with
  | VT_NULL =>
    rw [schema_cache_add_null_eq]
    cases hl : xmlHashLookup This.cache uri with
    | none =>
      rw [xmlHashRemoveEntry_of_none hl]
      exact hK
    | some id =>
      rw [xmlHashRemoveEntry_of_some hl]
      exact keysNodup_hashRemoveKey uri hK
  | VT_BSTR url =>
    rw [schema_cache_add_bstr_eq]
    cases hu : cache_entry_from_url env url with
    | none => exact hK
    | some entry => exact cache_insert_keysNodup st This uri entry hK
  | VT_DISPATCH doc? =>
    cases doc? with
    | none => exact hK
    | some doc =>
      rw [schema_cache_add_dispatch_some_eq]
      cases he : (if schema_type_from_xmlDocPtr doc = SCHEMA_TYPE.XSD then
          cache_entry_from_xsd_doc env doc
        else if schema_type_from_xmlDocPtr doc = SCHEMA_TYPE.XDR then
          some (cache_entry_from_xdr_doc doc)
        else none) with
      | none => exact hK
      | some entry => exact cache_insert_keysNodup st This uri entry hK
  | VT_OTHER => exact hK

theorem xmlHashLookup_append_right {c d : List (String × Nat)} {k : String}
    (h : k ∉ keys c) :
    xmlHashLookup (c ++ d) k = xmlHashLookup d k := by
  have h0 : c.find? (fun p => p.1 = k) = none :=
    Option.map_eq_none'.1 (xmlHashLookup_eq_none.2 h)
  unfold xmlHashLookup
  rw [List.find?_append, h0, Option.none_or]

theorem schema_cache_addCollection_some_eq (st : Store) (This That : schema_cache) :
    schema_cache_addCollection st This (some That) =
      ((That.cache.foldl cache_copy (st, This)).1,
       (That.cache.foldl cache_copy (st, This)).2, HRESULT.S_OK) := rfl

/-- A concrete modern (XSD) schema document, used in witnesses. -/
def xsdDoc : XmlDoc :=
  { root := some (XmlNode.mk XSD_schema (some { href := XSD_nsURI }) []) }

/-- A concrete legacy (XDR) schema document, used in witnesses. -/
def xdrDoc : XmlDoc :=
  { root := some (XmlNode.mk XDR_schema (some { href := XDR_nsURI }) []) }

/-- A concrete document with no recognisable schema signature. -/
def plainDoc : XmlDoc :=
  { root := some (XmlNode.mk "data" none []) }

/-- An environment whose schema compiler always succeeds. -/
def envOK : Env :=
  { compileFromUrl := fun _ => some xsdDoc, compileFromDocument := fun _ => true }

/-- An environment whose schema compiler always fails. -/
def envFail : Env :=
  { compileFromUrl := fun _ => none, compileFromDocument := fun _ => false }

/-- The state reached from a fresh cache by one successful URL `add`. -/
def oneEntryState : Store × schema_cache × HRESULT :=
  schema_cache_add envOK SchemaCache_create.1 SchemaCache_create.2 "urn:a"
    (VARIANT.VT_BSTR "file:///a.xsd")

/-- C10: for every store, collection and uri, `add(uri, Null)` and
`remove(uri)` are the same operation: they perform the same
`xmlHashRemoveEntry` (with the same `cache_free` release of the removed
entry) and both return `S_OK`. -/
theorem claim_C10 (env : Env) (st : Store) (This : schema_cache)
    (uri : String) :
    schema_cache_add env st This uri VARIANT.VT_NULL =
      schema_cache_remove st This uri := rfl

/-- C5: the dialect detector classifies solely from the root element: a
namespaced root named `schema` in the modern XSD namespace yields XSD, one
named `Schema` in the legacy XDR namespace yields XDR; a missing root, a
root with no namespace, or a non-matching signature yields INVALID; and the
classification never depends on the root's content (children). -/
theorem claim_C5 :
    (∀ (ns : XmlNs) (ch : List XmlNode), ns.href = XSD_nsURI →
      schema_type_from_xmlDocPtr { root := some (XmlNode.mk XSD_schema (some ns) ch) } =
        SCHEMA_TYPE.XSD) ∧
    (∀ (ns : XmlNs) (ch : List XmlNode), ns.href = XDR_nsURI →
      schema_type_from_xmlDocPtr { root := some (XmlNode.mk XDR_schema (some ns) ch) } =
        SCHEMA_TYPE.XDR) ∧
    (∀ (name : String) (ch : List XmlNode),
      schema_type_from_xmlDocPtr { root := some (XmlNode.mk name none ch) } =
        SCHEMA_TYPE.INVALID) ∧
    (schema_type_from_xmlDocPtr { root := none } = SCHEMA_TYPE.INVALID) ∧
    (∀ (name : String) (ns : XmlNs) (ch : List XmlNode),
      ¬ (name = XDR_schema ∧ ns.href = XDR_nsURI) →
      ¬ (name = XSD_schema ∧ ns.href = XSD_nsURI) →
      schema_type_from_xmlDocPtr { root := some (XmlNode.mk name (some ns) ch) } =
        SCHEMA_TYPE.INVALID) ∧
    (∀ (name : String) (ns : Option XmlNs) (ch ch' : List XmlNode),
      schema_type_from_xmlDocPtr { root := some (XmlNode.mk name ns ch) } =
        schema_type_from_xmlDocPtr { root := some (XmlNode.mk name ns ch') }) := by
  refine ⟨?_, ?_, ?_, rfl, ?_, ?_⟩
  · intro ns ch h
    show (if XSD_schema = XDR_schema ∧ ns.href = XDR_nsURI then SCHEMA_TYPE.XDR
          else if XSD_schema = XSD_schema ∧ ns.href = XSD_nsURI then SCHEMA_TYPE.XSD
          else SCHEMA_TYPE.INVALID) = SCHEMA_TYPE.XSD
    rw [if_neg (fun hc => absurd hc.1 (by decide)), if_pos ⟨rfl, h⟩]
  · intro ns ch h
    show (if XDR_schema = XDR_schema ∧ ns.href = XDR_nsURI then SCHEMA_TYPE.XDR
          else if XDR_schema = XSD_schema ∧ ns.href = XSD_nsURI then SCHEMA_TYPE.XSD
          else SCHEMA_TYPE.INVALID) = SCHEMA_TYPE.XDR
    rw [if_pos ⟨rfl, h⟩]
  · intro name ch
    rfl
  · intro name ns ch h1 h2
    show (if name = XDR_schema ∧ ns.href = XDR_nsURI then SCHEMA_TYPE.XDR
          else if name = XSD_schema ∧ ns.href = XSD_nsURI then SCHEMA_TYPE.XSD
          else SCHEMA_TYPE.INVALID) = SCHEMA_TYPE.INVALID
    rw [if_neg h1, if_neg h2]
  · intro name ns ch ch'
    rfl

/-- C5 witness: the detector at concrete documents — `xsdDoc` is XSD,
`xdrDoc` is XDR, a namespace-free root and a missing root are INVALID, a
mismatched signature is INVALID, and content is ignored. -/
theorem claim_C5_witness :
    schema_type_from_xmlDocPtr { root := some (XmlNode.mk XSD_schema
      (some { href := XSD_nsURI }) []) } = SCHEMA_TYPE.XSD ∧
    schema_type_from_xmlDocPtr { root := some (XmlNode.mk XDR_schema
      (some { href := XDR_nsURI }) []) } = SCHEMA_TYPE.XDR ∧
    schema_type_from_xmlDocPtr { root := some (XmlNode.mk "schema"
      (some { href := "urn:other" }) []) } = SCHEMA_TYPE.INVALID :=
  ⟨claim_C5.1 { href := XSD_nsURI } [] rfl,
   claim_C5.2.1 { href := XDR_nsURI } [] rfl,
   claim_C5.2.2.2.2.1 "schema" { href := "urn:other" } []
     (fun hc => absurd hc.1 (by decide)) (fun hc => absurd hc.2 (by decide))⟩

/-- C6: `get(uri)` without an output slot returns `E_POINTER`; with a slot
and an absent key it returns `S_OK` with a null result; with a present key
it returns a new document view over the entry's owned document; and in every
case the store (hence every entry's reference count) is left untouched. -/
theorem claim_C6 (st : Store) (This : schema_cache) (uri : String) :
    (∀ hasSlot, (schema_cache_get st This uri hasSlot).1 = st) ∧
    schema_cache_get st This uri false = (st, HRESULT.E_POINTER, none) ∧
    (xmlHashLookup This.cache uri = none →
      schema_cache_get st This uri true = (st, HRESULT.S_OK, some none)) ∧
    (∀ id e, xmlHashLookup This.cache uri = some id → lookupEntry st id = some e →
      schema_cache_get st This uri true =
        (st, HRESULT.S_OK, some (some ({ doc := e.doc } : DocView)))) := by
  refine ⟨?_, rfl, ?_, ?_⟩
  · intro hasSlot
    cases hasSlot with
    | false => rfl
    | true =>
      cases hl : xmlHashLookup This.cache uri with
      | none => rw [schema_cache_get_absent hl]
      | some id =>
        cases he : lookupEntry st id with
        | none =>
          unfold schema_cache_get
          rw [if_neg (by simp), hl]
          show (match lookupEntry st id with
                | some entry => (st, HRESULT.S_OK, some (some ({ doc := entry.doc } : DocView)))
                | none => (st, HRESULT.S_OK, some none)).1 = st
          rw [he]
        | some e => rw [schema_cache_get_present hl he]
  · intro hl
    exact schema_cache_get_absent hl
  · intro id e hl he
    exact schema_cache_get_present hl he

/-- C6 witness: on the one-entry state, `get` without a slot is `E_POINTER`,
`get` of an unseen uri succeeds with null, and `get` of the stored uri
returns the view over the stored document. -/
theorem claim_C6_witness :
    (schema_cache_get oneEntryState.1 oneEntryState.2.1 "urn:a" false).2.1 =
      HRESULT.E_POINTER ∧
    schema_cache_get oneEntryState.1 oneEntryState.2.1 "urn:b" true =
      (oneEntryState.1, HRESULT.S_OK, some none) ∧
    schema_cache_get oneEntryState.1 oneEntryState.2.1 "urn:a" true =
      (oneEntryState.1, HRESULT.S_OK, some (some ({ doc := xsdDoc } : DocView))) :=
  ⟨by rw [(claim_C6 oneEntryState.1 oneEntryState.2.1 "urn:a").2.1],
   (claim_C6 oneEntryState.1 oneEntryState.2.1 "urn:b").2.2.1 (by rfl),
   (claim_C6 oneEntryState.1 oneEntryState.2.1 "urn:a").2.2.2 0
     { type := SCHEMA_TYPE.XSD, schema := some xsdDoc, doc := xsdDoc, ref := 1 }
     (by rfl) (by rfl)⟩

/-- C4: every failing `add` leaves both the store and the collection
unchanged and returns the taxonomy's code: URL construction/compile failure
is `E_FAIL`; a Document source that does not resolve to a document-bearing
node is `E_INVALIDARG`; an undetectable dialect is `E_FAIL`; an XSD document
whose compilation fails is `E_FAIL`; any other source shape is
`E_INVALIDARG`. -/
theorem claim_C4 (env : Env) (st : Store) (This : schema_cache)
    (uri : String) :
    (∀ url, env.compileFromUrl url = none →
      schema_cache_add env st This uri (VARIANT.VT_BSTR url) =
        (st, This, HRESULT.E_FAIL)) ∧
    (schema_cache_add env st This uri (VARIANT.VT_DISPATCH none) =
      (st, This, HRESULT.E_INVALIDARG)) ∧
    (∀ doc, schema_type_from_xmlDocPtr doc = SCHEMA_TYPE.INVALID →
      schema_cache_add env st This uri (VARIANT.VT_DISPATCH (some doc)) =
        (st, This, HRESULT.E_FAIL)) ∧
    (∀ doc, schema_type_from_xmlDocPtr doc = SCHEMA_TYPE.XSD →
      cache_entry_from_xsd_doc env doc = none →
      schema_cache_add env st This uri (VARIANT.VT_DISPATCH (some doc)) =
        (st, This, HRESULT.E_FAIL)) ∧
    (schema_cache_add env st This uri VARIANT.VT_OTHER =
      (st, This, HRESULT.E_INVALIDARG)) := by
  refine ⟨?_, rfl, ?_, ?_, rfl⟩
  · intro url h
    rw [schema_cache_add_bstr_eq]
    have hu : cache_entry_from_url env url = none := by
      unfold cache_entry_from_url
      rw [h]
    rw [hu]
  · intro doc h
    rw [schema_cache_add_dispatch_some_eq, h,
        if_neg (by decide), if_neg (by decide)]
  · intro doc h hx
    rw [schema_cache_add_dispatch_some_eq, h, if_pos rfl, hx]

/-- C4 witness: with the always-failing compiler, a URL add fails with
`E_FAIL`; a null dispatch handle is `E_INVALIDARG`; an unrecognisable
document is `E_FAIL`; an XSD document that fails to compile is `E_FAIL`;
an unsupported variant type is `E_INVALIDARG` — all leaving the fresh state
unchanged. -/
theorem claim_C4_witness :
    schema_cache_add envFail SchemaCache_create.1 SchemaCache_create.2 "urn:a"
      (VARIANT.VT_BSTR "file:///a.xsd") =
      (SchemaCache_create.1, SchemaCache_create.2, HRESULT.E_FAIL) ∧
    schema_cache_add envFail SchemaCache_create.1 SchemaCache_create.2 "urn:a"
      (VARIANT.VT_DISPATCH (some plainDoc)) =
      (SchemaCache_create.1, SchemaCache_create.2, HRESULT.E_FAIL) ∧
    schema_cache_add envFail SchemaCache_create.1 SchemaCache_create.2 "urn:a"
      (VARIANT.VT_DISPATCH (some xsdDoc)) =
      (SchemaCache_create.1, SchemaCache_create.2, HRESULT.E_FAIL) ∧
    schema_cache_add envFail SchemaCache_create.1 SchemaCache_create.2 "urn:a"
      VARIANT.VT_OTHER =
      (SchemaCache_create.1, SchemaCache_create.2, HRESULT.E_INVALIDARG) :=
  ⟨(claim_C4 envFail SchemaCache_create.1 SchemaCache_create.2 "urn:a").1
     "file:///a.xsd" rfl,
   (claim_C4 envFail SchemaCache_create.1 SchemaCache_create.2 "urn:a").2.2.1
     plainDoc rfl,
   (claim_C4 envFail SchemaCache_create.1 SchemaCache_create.2 "urn:a").2.2.2.1
     xsdDoc (by rfl) (by rfl),
   (claim_C4 envFail SchemaCache_create.1 SchemaCache_create.2 "urn:a").2.2.2.2⟩

/-- C1 counterexample: the claim says every index outside `[0, length())`
returns an error, but on a one-entry collection `namespaceUriAt(-1)` returns
`S_OK` (with a null output): the only guard is `index >= xmlHashSize`, which
a negative index passes, and the scan counter never reaches zero. -/
theorem claim_C1_counterexample :
    xmlHashSize oneEntryState.2.1.cache = 1 ∧
    ((-1 : Int) < 0 ∨ (-1 : Int) ≥ xmlHashSize oneEntryState.2.1.cache) ∧
    schema_cache_get_namespaceURI oneEntryState.2.1 (-1) true =
      (HRESULT.S_OK, some none) := by
  refine ⟨rfl, Or.inl (by decide), rfl⟩

/-- C1 (amended): with an output slot, `index ≥ length()` returns `E_FAIL`;
`0 ≤ index < length()` returns `S_OK` and writes the key at the `index`-th
position of the scan order; a negative `index` is *not* rejected: the call
returns `S_OK` with the output slot left null (the scan counter never hits
zero). -/
theorem claim_C1 (This : schema_cache) (index : Int) :
    (index ≥ xmlHashSize This.cache →
      schema_cache_get_namespaceURI This index true =
        (HRESULT.E_FAIL, some none)) ∧
    (0 ≤ index → index < xmlHashSize This.cache →
      ∃ k, (keys This.cache)[index.toNat]? = some k ∧
        schema_cache_get_namespaceURI This index true =
          (HRESULT.S_OK, some (some k))) ∧
    (index < 0 →
      schema_cache_get_namespaceURI This index true =
        (HRESULT.S_OK, some none)) := by
  refine ⟨?_, ?_, ?_⟩
  · intro h
    unfold schema_cache_get_namespaceURI
    rw [if_neg (by simp), if_pos h]
  · intro h0 h1
    have hlen : (keys This.cache).length = This.cache.length := by
      unfold keys
      exact List.length_map _ _
    have hlt : index.toNat < (keys This.cache).length := by
      unfold xmlHashSize at h1
      omega
    refine ⟨(keys This.cache)[index.toNat], ?_, ?_⟩
    · exact List.getElem?_eq_getElem hlt
    · unfold schema_cache_get_namespaceURI
      rw [if_neg (by simp), if_neg (by omega)]
      have hscan := foldl_cache_index_get (This.cache.map (fun p => p.1)) index
        none h0 (by unfold xmlHashSize at h1; rw [List.length_map]; exact h1)
      rw [hscan]
      have : (This.cache.map (fun p => p.1))[index.toNat]? =
          (keys This.cache)[index.toNat]? := rfl
      rw [this, List.getElem?_eq_getElem hlt]
  · intro h
    unfold schema_cache_get_namespaceURI
    have hsz : ¬ index ≥ xmlHashSize This.cache := by
      unfold xmlHashSize
      omega
    rw [if_neg (by simp), if_neg hsz,
        foldl_cache_index_neg (This.cache.map (fun p => p.1)) index none h]

/-- C1 witness: on the one-entry collection, index 5 is rejected with
`E_FAIL`, index 0 succeeds and yields the stored key, and index -2 succeeds
with a null output. -/
theorem claim_C1_witness :
    schema_cache_get_namespaceURI oneEntryState.2.1 5 true =
      (HRESULT.E_FAIL, some none) ∧
    (∃ k, (keys oneEntryState.2.1.cache)[(0 : Int).toNat]? = some k ∧
      schema_cache_get_namespaceURI oneEntryState.2.1 0 true =
        (HRESULT.S_OK, some (some k))) ∧
    schema_cache_get_namespaceURI oneEntryState.2.1 (-2) true =
      (HRESULT.S_OK, some none) :=
  ⟨(claim_C1 oneEntryState.2.1 5).1 (by decide),
   (claim_C1 oneEntryState.2.1 0).2.1 (by decide) (by decide),
   (claim_C1 oneEntryState.2.1 (-2)).2.2 (by decide)⟩

/-- C8: `add(uri, Null)` removes any existing entry at the key (and is a
no-op on the whole state when the key is absent), always returns `S_OK`, and
a subsequent `get(uri)` returns `S_OK` with a null result. -/
theorem claim_C8 (env : Env) (st : Store) (This : schema_cache) (uri : String)
    (hK : KeysNodup This.cache) :
    (schema_cache_add env st This uri VARIANT.VT_NULL).2.2 = HRESULT.S_OK ∧
    (uri ∉ keys This.cache →
      schema_cache_add env st This uri VARIANT.VT_NULL =
        (st, This, HRESULT.S_OK)) ∧
    uri ∉ keys ((schema_cache_add env st This uri VARIANT.VT_NULL).2.1).cache ∧
    schema_cache_get (schema_cache_add env st This uri VARIANT.VT_NULL).1
        ((schema_cache_add env st This uri VARIANT.VT_NULL).2.1) uri true =
      ((schema_cache_add env st This uri VARIANT.VT_NULL).1, HRESULT.S_OK,
       some none) := by
  have hc : ((schema_cache_add env st This uri VARIANT.VT_NULL).2.1).cache =
      (xmlHashRemoveEntry st This.cache uri).2 := rfl
  have hnm : uri ∉ keys
      ((schema_cache_add env st This uri VARIANT.VT_NULL).2.1).cache := by
    rw [hc]
    cases hl : xmlHashLookup This.cache uri with
    | none =>
      rw [xmlHashRemoveEntry_of_none hl]
      exact xmlHashLookup_eq_none.1 hl
    | some id =>
      rw [xmlHashRemoveEntry_of_some hl]
      exact not_mem_keys_hashRemoveKey hK
  refine ⟨rfl, ?_, hnm, ?_⟩
  · intro h
    rw [schema_cache_add_null_eq,
        xmlHashRemoveEntry_of_none (xmlHashLookup_eq_none.2 h)]
  · exact schema_cache_get_absent (xmlHashLookup_eq_none.2 hnm)

/-- C8 witness: `add(uri, Null)` on a fresh cache is a total no-op with
`S_OK`; on the one-entry state it removes the binding and the following
`get` is `S_OK` with null. -/
theorem claim_C8_witness :
    schema_cache_add envOK SchemaCache_create.1 SchemaCache_create.2 "urn:z"
      VARIANT.VT_NULL =
      (SchemaCache_create.1, SchemaCache_create.2, HRESULT.S_OK) ∧
    "urn:a" ∉ keys ((schema_cache_add envOK oneEntryState.1 oneEntryState.2.1
      "urn:a" VARIANT.VT_NULL).2.1).cache ∧
    schema_cache_get
        (schema_cache_add envOK oneEntryState.1 oneEntryState.2.1 "urn:a"
          VARIANT.VT_NULL).1
        ((schema_cache_add envOK oneEntryState.1 oneEntryState.2.1 "urn:a"
          VARIANT.VT_NULL).2.1) "urn:a" true =
      ((schema_cache_add envOK oneEntryState.1 oneEntryState.2.1 "urn:a"
         VARIANT.VT_NULL).1, HRESULT.S_OK, some none) :=
  ⟨(claim_C8 envOK SchemaCache_create.1 SchemaCache_create.2 "urn:z"
      (by decide)).2.1 (by decide),
   (claim_C8 envOK oneEntryState.1 oneEntryState.2.1 "urn:a"
      (by decide)).2.2.1,
   (claim_C8 envOK oneEntryState.1 oneEntryState.2.1 "urn:a"
      (by decide)).2.2.2⟩

/-- C9: `remove(uri)` always returns `S_OK`; removing an absent key leaves
the whole state unchanged; a second `remove` right after the first is a
total no-op (so it cannot change `length()`); and removing a present key
releases the collection's reference to the entry — freeing it when that was
the last reference, otherwise just decrementing its count. -/
theorem claim_C9 (st : Store) (This : schema_cache) (uri : String)
    (hK : KeysNodup This.cache) :
    (schema_cache_remove st This uri).2.2 = HRESULT.S_OK ∧
    (uri ∉ keys This.cache →
      schema_cache_remove st This uri = (st, This, HRESULT.S_OK)) ∧
    (schema_cache_remove (schema_cache_remove st This uri).1
        ((schema_cache_remove st This uri).2.1) uri =
      ((schema_cache_remove st This uri).1,
       (schema_cache_remove st This uri).2.1, HRESULT.S_OK)) ∧
    xmlHashSize ((schema_cache_remove (schema_cache_remove st This uri).1
        ((schema_cache_remove st This uri).2.1) uri).2.1).cache =
      xmlHashSize ((schema_cache_remove st This uri).2.1).cache ∧
    (∀ id e, xmlHashLookup This.cache uri = some id →
      lookupEntry st id = some e →
      (e.ref = 1 → lookupEntry (schema_cache_remove st This uri).1 id = none ∧
        id ∈ ((schema_cache_remove st This uri).1).freed) ∧
      (¬ e.ref - 1 = 0 →
        lookupEntry (schema_cache_remove st This uri).1 id =
          some { e with ref := e.ref - 1 })) := by
  have hc : ((schema_cache_remove st This uri).2.1).cache =
      (xmlHashRemoveEntry st This.cache uri).2 := rfl
  have hfst : (schema_cache_remove st This uri).1 =
      (xmlHashRemoveEntry st This.cache uri).1 := rfl
  have hnm : uri ∉ keys ((schema_cache_remove st This uri).2.1).cache := by
    rw [hc]
    cases hl : xmlHashLookup This.cache uri with
    | none =>
      rw [xmlHashRemoveEntry_of_none hl]
      exact xmlHashLookup_eq_none.1 hl
    | some id =>
      rw [xmlHashRemoveEntry_of_some hl]
      exact not_mem_keys_hashRemoveKey hK
  have hsecond : schema_cache_remove (schema_cache_remove st This uri).1
      ((schema_cache_remove st This uri).2.1) uri =
      ((schema_cache_remove st This uri).1,
       (schema_cache_remove st This uri).2.1, HRESULT.S_OK) := by
    rw [schema_cache_remove_eq (schema_cache_remove st This uri).1
        ((schema_cache_remove st This uri).2.1) uri,
        xmlHashRemoveEntry_of_none (xmlHashLookup_eq_none.2 hnm)]
  refine ⟨rfl, ?_, hsecond, ?_, ?_⟩
  · intro h
    rw [schema_cache_remove_eq,
        xmlHashRemoveEntry_of_none (xmlHashLookup_eq_none.2 h)]
  · rw [hsecond]
  · intro id e hl he
    have hrel : (schema_cache_remove st This uri).1 = cache_free st id := by
      rw [hfst, xmlHashRemoveEntry_of_some hl]
    constructor
    · intro h1
      rw [hrel]
      have hs := cache_free_spec_free he h1
      exact ⟨hs.2.1, by rw [hs.1]; simp⟩
    · intro h1
      rw [hrel]
      exact (cache_free_spec_dec he h1).2.1

/-- C9 witness: on the one-entry state, removing the stored key succeeds and
frees its last-reference entry (identifier 0), a second removal is a no-op
returning `S_OK`, and removing an absent key from a fresh cache changes
nothing. -/
theorem claim_C9_witness :
    (schema_cache_remove oneEntryState.1 oneEntryState.2.1 "urn:a").2.2 =
      HRESULT.S_OK ∧
    schema_cache_remove SchemaCache_create.1 SchemaCache_create.2 "urn:a" =
      (SchemaCache_create.1, SchemaCache_create.2, HRESULT.S_OK) ∧
    (schema_cache_remove
        (schema_cache_remove oneEntryState.1 oneEntryState.2.1 "urn:a").1
        ((schema_cache_remove oneEntryState.1 oneEntryState.2.1 "urn:a").2.1)
        "urn:a" =
      ((schema_cache_remove oneEntryState.1 oneEntryState.2.1 "urn:a").1,
       (schema_cache_remove oneEntryState.1 oneEntryState.2.1 "urn:a").2.1,
       HRESULT.S_OK)) ∧
    lookupEntry (schema_cache_remove oneEntryState.1 oneEntryState.2.1
      "urn:a").1 0 = none ∧
    0 ∈ ((schema_cache_remove oneEntryState.1 oneEntryState.2.1
      "urn:a").1).freed :=
  ⟨(claim_C9 oneEntryState.1 oneEntryState.2.1 "urn:a" (by decide)).1,
   (claim_C9 SchemaCache_create.1 SchemaCache_create.2 "urn:a"
      (by decide)).2.1 (by decide),
   (claim_C9 oneEntryState.1 oneEntryState.2.1 "urn:a" (by decide)).2.2.1,
   ((claim_C9 oneEntryState.1 oneEntryState.2.1 "urn:a" (by decide)).2.2.2.2 0
      { type := SCHEMA_TYPE.XSD, schema := some xsdDoc, doc := xsdDoc, ref := 1 }
      (by rfl) (by rfl)).1 (by rfl) |>.1,
   ((claim_C9 oneEntryState.1 oneEntryState.2.1 "urn:a" (by decide)).2.2.2.2 0
      { type := SCHEMA_TYPE.XSD, schema := some xsdDoc, doc := xsdDoc, ref := 1 }
      (by rfl) (by rfl)).1 (by rfl) |>.2⟩

/-- C3: every construction path creates its entry with reference count 0;
`add` stores entries after exactly one `addRef` (every entry live after an
`add` either predates the call or carries count 1); and a release reaching
count zero performs exactly one teardown, in order — document release, then
(XSD only) schema doc detach and schema free, then entry free — while a
release not reaching zero performs none. -/
theorem claim_C3 :
    (∀ (env : Env) (url : String) (e : cache_entry),
      cache_entry_from_url env url = some e → e.ref = 0) ∧
    (∀ (env : Env) (d : XmlDoc) (e : cache_entry),
      cache_entry_from_xsd_doc env d = some e → e.ref = 0) ∧
    (∀ d : XmlDoc, (cache_entry_from_xdr_doc d).ref = 0) ∧
    (∀ (env : Env) (st : Store) (This : schema_cache) (uri : String)
      (v : VARIANT), CacheIdsBounded This st →
      ∀ pe ∈ ((schema_cache_add env st This uri v).1).entries,
        pe.1 ∈ st.entries.map (fun p => p.1) ∨ pe.2.ref = 1) ∧
    (∀ e : cache_entry, e.ref = 1 →
      (cache_entry_release e).1 = 0 ∧
      (cache_entry_release e).2 =
        (if e.type = SCHEMA_TYPE.XSD then
          [CacheAction.xmldoc_release, CacheAction.schema_detach_doc,
           CacheAction.xmlSchemaFree, CacheAction.heap_free_entry]
         else [CacheAction.xmldoc_release, CacheAction.heap_free_entry])) ∧
    (∀ e : cache_entry, ¬ (cache_entry_release e).1 = 0 →
      (cache_entry_release e).2 = []) := by
  refine ⟨?_, ?_, ?_, ?_, ?_, ?_⟩
  · intro env url e h
    exact cache_entry_from_url_ref h
  · intro env d e h
    exact cache_entry_from_xsd_doc_ref h
  · intro d
    exact cache_entry_from_xdr_doc_ref d
  · intro env st This uri v hB pe hpe
    cases v with
    | VT_NULL =>
      exact Or.inl (xmlHashRemoveEntry_entries_sub st This.cache uri pe hpe)
    | VT_BSTR url =>
      rw [schema_cache_add_bstr_eq] at hpe
      cases hu : cache_entry_from_url env url with
      | none =>
        rw [hu] at hpe
        exact Or.inl (List.mem_map.2 ⟨pe, hpe, rfl⟩)
      | some entry =>
        rw [hu] at hpe
        rcases cache_insert_entries_shape st This uri entry hB pe hpe with h1 | h1
        · exact Or.inl h1
        · refine Or.inr ?_
          rw [h1]
          show entry.ref + 1 = 1
          rw [cache_entry_from_url_ref hu]
          decide
    | VT_DISPATCH doc? =>
      cases doc? with
      | none => exact Or.inl (List.mem_map.2 ⟨pe, hpe, rfl⟩)
      | some doc =>
        rw [schema_cache_add_dispatch_some_eq] at hpe
        cases he : (if schema_type_from_xmlDocPtr doc = SCHEMA_TYPE.XSD then
            cache_entry_from_xsd_doc env doc
          else if schema_type_from_xmlDocPtr doc = SCHEMA_TYPE.XDR then
            some (cache_entry_from_xdr_doc doc)
          else none) with
        | none =>
          rw [he] at hpe
          exact Or.inl (List.mem_map.2 ⟨pe, hpe, rfl⟩)
        | some entry =>
          rw [he] at hpe
          rcases cache_insert_entries_shape st This uri entry hB pe hpe with h1 | h1
          · exact Or.inl h1
          · refine Or.inr ?_
            rw [h1]
            show entry.ref + 1 = 1
            by_cases h1' : schema_type_from_xmlDocPtr doc = SCHEMA_TYPE.XSD
            · rw [if_pos h1'] at he
              rw [cache_entry_from_xsd_doc_ref he]
              decide
            · rw [if_neg h1'] at he
              by_cases h2' : schema_type_from_xmlDocPtr doc = SCHEMA_TYPE.XDR
              · rw [if_pos h2'] at he
                injection he with he'
                rw [← he', cache_entry_from_xdr_doc_ref doc]
                decide
              · rw [if_neg h2'] at he
                cases he
    | VT_OTHER => exact Or.inl (List.mem_map.2 ⟨pe, hpe, rfl⟩)
  · intro e h
    have h0 : e.ref - 1 = 0 := by omega
    constructor
    · show e.ref - 1 = 0
      exact h0
    · show (if e.ref - 1 = 0 then
          (if e.type = SCHEMA_TYPE.XSD then
            [CacheAction.xmldoc_release, CacheAction.schema_detach_doc,
             CacheAction.xmlSchemaFree, CacheAction.heap_free_entry]
           else [CacheAction.xmldoc_release, CacheAction.heap_free_entry])
        else []) =
        (if e.type = SCHEMA_TYPE.XSD then
          [CacheAction.xmldoc_release, CacheAction.schema_detach_doc,
           CacheAction.xmlSchemaFree, CacheAction.heap_free_entry]
         else [CacheAction.xmldoc_release, CacheAction.heap_free_entry])
      rw [if_pos h0]
  · intro e h
    have h0 : ¬ e.ref - 1 = 0 := h
    show (if e.ref - 1 = 0 then
        (if e.type = SCHEMA_TYPE.XSD then
          [CacheAction.xmldoc_release, CacheAction.schema_detach_doc,
           CacheAction.xmlSchemaFree, CacheAction.heap_free_entry]
         else [CacheAction.xmldoc_release, CacheAction.heap_free_entry])
      else []) = []
    rw [if_neg h0]

/-- A concrete XSD entry at count 0, as produced by the construction paths. -/
def entryRef0 : cache_entry :=
  { type := SCHEMA_TYPE.XSD, schema := some xsdDoc, doc := xsdDoc, ref := 0 }

/-- A concrete XSD entry at count 1, as stored by `add`. -/
def entryRef1 : cache_entry :=
  { type := SCHEMA_TYPE.XSD, schema := some xsdDoc, doc := xsdDoc, ref := 1 }

/-- A concrete XSD entry at count 2 (one extra holder). -/
def entryRef2 : cache_entry :=
  { type := SCHEMA_TYPE.XSD, schema := some xsdDoc, doc := xsdDoc, ref := 2 }

/-- C3 witness: the URL construction path at a concrete environment yields
count 0; after the concrete one-entry `add`, the stored entry (identifier 0,
fresh) carries count 1; releasing a count-1 XSD entry performs the four-step
teardown in order; releasing a count-2 entry performs none. -/
theorem claim_C3_witness :
    entryRef0.ref = 0 ∧
    (((0 : Nat), entryRef1).1 ∈ SchemaCache_create.1.entries.map (fun p => p.1) ∨
      ((0 : Nat), entryRef1).2.ref = 1) ∧
    ((cache_entry_release entryRef1).1 = 0 ∧
      (cache_entry_release entryRef1).2 =
        (if entryRef1.type = SCHEMA_TYPE.XSD then
          [CacheAction.xmldoc_release, CacheAction.schema_detach_doc,
           CacheAction.xmlSchemaFree, CacheAction.heap_free_entry]
         else [CacheAction.xmldoc_release, CacheAction.heap_free_entry])) ∧
    (cache_entry_release entryRef2).2 = [] :=
  ⟨claim_C3.1 envOK "file:///a.xsd" entryRef0 rfl,
   claim_C3.2.2.2.1 envOK SchemaCache_create.1 SchemaCache_create.2 "urn:a"
     (VARIANT.VT_BSTR "file:///a.xsd") (by decide) ((0 : Nat), entryRef1)
     (by exact List.mem_singleton.2 rfl),
   claim_C3.2.2.2.2.1 entryRef1 rfl,
   claim_C3.2.2.2.2.2 entryRef2 (by decide)⟩

/-- C2: after any `add` the collection holds at most one entry per key; and
in the replace scenario — two successful non-null `add`s on the same uri —
the second add frees the first add's entry (its identifier is gone from the
live store and recorded as freed), binds the uri to the second entry (stored
with count 1), and a subsequent `get` returns the view over the second
entry's document only. -/
theorem claim_C2 (env : Env) (st0 : Store) (c0 : schema_cache) (uri : String)
    (vA vB : VARIANT) (st1 st2 : Store) (c1 c2 : schema_cache)
    (hW : StoreWF st0) (hK : KeysNodup c0.cache) (hB : CacheIdsBounded c0 st0)
    (h1 : schema_cache_add env st0 c0 uri vA = (st1, c1, HRESULT.S_OK))
    (hA : ¬ vA = VARIANT.VT_NULL)
    (h2 : schema_cache_add env st1 c1 uri vB = (st2, c2, HRESULT.S_OK))
    (hB2 : ¬ vB = VARIANT.VT_NULL) :
    (∀ (env' : Env) (st : Store) (c : schema_cache) (uri' : String)
      (v : VARIANT), KeysNodup c.cache →
      List.countP (fun p => p.1 = uri')
        (((schema_cache_add env' st c uri' v).2.1).cache) ≤ 1) ∧
    List.countP (fun p => p.1 = uri) c2.cache ≤ 1 ∧
    st0.nextId ∈ st2.freed ∧
    lookupEntry st2 st0.nextId = none ∧
    xmlHashLookup c2.cache uri = some st1.nextId ∧
    (∃ eB, lookupEntry st2 st1.nextId = some eB ∧ eB.ref = 1 ∧
      schema_cache_get st2 c2 uri true =
        (st2, HRESULT.S_OK, some (some ({ doc := eB.doc } : DocView)))) := by
  obtain ⟨eA, hArf, hst1, hc1⟩ := schema_cache_add_success_shape h1 hA
  obtain ⟨eB, hBrf, hst2, hc2⟩ := schema_cache_add_success_shape h2 hB2
  subst hst1
  subst hc1
  subst hst2
  subst hc2
  have hK1 : KeysNodup (cache_insert st0 c0 uri eA).2.cache :=
    cache_insert_keysNodup st0 c0 uri eA hK
  have hW1 : StoreWF (cache_insert st0 c0 uri eA).1 :=
    cache_insert_storeWF st0 c0 uri eA hW
  have hB1 : CacheIdsBounded (cache_insert st0 c0 uri eA).2
      (cache_insert st0 c0 uri eA).1 :=
    cache_insert_bounded st0 c0 uri eA hK hB
  have hL1 : xmlHashLookup (cache_insert st0 c0 uri eA).2.cache uri =
      some st0.nextId := cache_insert_lookup_self st0 c0 uri eA hK
  have hE1 : lookupEntry (cache_insert st0 c0 uri eA).1 st0.nextId =
      some (cache_entry_add_ref eA) :=
    cache_insert_lookup_nextId st0 c0 uri eA hW hB
  have hRef1 : (cache_entry_add_ref eA).ref = 1 := by
    show eA.ref + 1 = 1
    rw [hArf]
    decide
  have hN1 : (cache_insert st0 c0 uri eA).1.nextId = st0.nextId + 1 :=
    cache_insert_nextId st0 c0 uri eA
  have hrel := cache_insert_replaced_released (cache_insert st0 c0 uri eA).1
    (cache_insert st0 c0 uri eA).2 uri eB hB1 hL1 hE1 hRef1
  have hL2 : xmlHashLookup
      (cache_insert (cache_insert st0 c0 uri eA).1
        (cache_insert st0 c0 uri eA).2 uri eB).2.cache uri =
      some (cache_insert st0 c0 uri eA).1.nextId :=
    cache_insert_lookup_self (cache_insert st0 c0 uri eA).1
      (cache_insert st0 c0 uri eA).2 uri eB hK1
  have hE2 : lookupEntry
      (cache_insert (cache_insert st0 c0 uri eA).1
        (cache_insert st0 c0 uri eA).2 uri eB).1
      (cache_insert st0 c0 uri eA).1.nextId =
      some (cache_entry_add_ref eB) :=
    cache_insert_lookup_nextId (cache_insert st0 c0 uri eA).1
      (cache_insert st0 c0 uri eA).2 uri eB hW1 hB1
  refine ⟨?_, ?_, ?_, ?_, hL2, ?_⟩
  · intro env' st c uri' v hKc
    exact countP_key_le_one uri' (keysNodup_schema_cache_add env' st c uri' v hKc)
  · exact countP_key_le_one uri
      (cache_insert_keysNodup (cache_insert st0 c0 uri eA).1
        (cache_insert st0 c0 uri eA).2 uri eB hK1)
  · rw [hrel.1]
    simp
  · exact hrel.2
  · refine ⟨cache_entry_add_ref eB, hE2, ?_, ?_⟩
    · show eB.ref + 1 = 1
      rw [hBrf]
      decide
    · exact schema_cache_get_present hL2 hE2

/-- The state after the first of two conflicting URL adds. -/
def twoAddFirst : Store × schema_cache × HRESULT :=
  schema_cache_add envOK SchemaCache_create.1 SchemaCache_create.2 "urn:a"
    (VARIANT.VT_BSTR "u1")

/-- The state after the second of two conflicting URL adds. -/
def twoAddSecond : Store × schema_cache × HRESULT :=
  schema_cache_add envOK twoAddFirst.1 twoAddFirst.2.1 "urn:a"
    (VARIANT.VT_BSTR "u2")

/-- C2 witness: two concrete URL adds on the same uri — the first entry
(identifier 0) is freed, the uri is bound to the second entry
(identifier 1, count 1) and `get` returns the second entry's view. -/
theorem claim_C2_witness :
    (0 : Nat) ∈ twoAddSecond.1.freed ∧
    lookupEntry twoAddSecond.1 0 = none ∧
    xmlHashLookup twoAddSecond.2.1.cache "urn:a" = some 1 ∧
    (∃ eB, lookupEntry twoAddSecond.1 1 = some eB ∧ eB.ref = 1 ∧
      schema_cache_get twoAddSecond.1 twoAddSecond.2.1 "urn:a" true =
        (twoAddSecond.1, HRESULT.S_OK, some (some ({ doc := eB.doc } : DocView)))) :=
  have main := claim_C2 envOK SchemaCache_create.1 SchemaCache_create.2 "urn:a"
    (VARIANT.VT_BSTR "u1") (VARIANT.VT_BSTR "u2") twoAddFirst.1 twoAddSecond.1
    twoAddFirst.2.1 twoAddSecond.2.1 (by decide) (by decide) (by decide) rfl
    (by intro h; exact VARIANT.noConfusion h) rfl
    (by intro h; exact VARIANT.noConfusion h)
  ⟨main.2.2.1, main.2.2.2.1, main.2.2.2.2.1, main.2.2.2.2.2⟩

/-- C7: `addCollection(other)` leaves every key already present in the
destination bound to its existing entry, and for every key of `other`
absent from the destination it copies the shared entry identifier and
increments that entry's reference count; the call returns `S_OK`. -/
theorem claim_C7 (st : Store) (This That : schema_cache)
    (hKThat : KeysNodup That.cache)
    (hIThat : (That.cache.map (fun p => p.2)).Nodup) :
    (schema_cache_addCollection st This (some That)).2.2 = HRESULT.S_OK ∧
    (∀ k, k ∈ keys This.cache →
      xmlHashLookup
          ((schema_cache_addCollection st This (some That)).2.1).cache k =
        xmlHashLookup This.cache k) ∧
    (∀ k id, k ∉ keys This.cache → xmlHashLookup That.cache k = some id →
      xmlHashLookup
          ((schema_cache_addCollection st This (some That)).2.1).cache k =
        some id ∧
      lookupEntry (schema_cache_addCollection st This (some That)).1 id =
        (lookupEntry st id).map cache_entry_add_ref) := by
  have hchar := foldl_cache_copy_char That.cache st This hKThat
  have hcache : ((schema_cache_addCollection st This (some That)).2.1).cache =
      This.cache ++ That.cache.filter
        (fun p => (xmlHashLookup This.cache p.1).isNone) := by
    rw [schema_cache_addCollection_some_eq]
    show ((That.cache.foldl cache_copy (st, This)).2).cache = _
    rw [hchar]
  have hstore : (schema_cache_addCollection st This (some That)).1 =
      (That.cache.filter
        (fun p => (xmlHashLookup This.cache p.1).isNone)).foldl
        (fun s p => store_add_ref s p.2) st := by
    rw [schema_cache_addCollection_some_eq]
    show ((That.cache.foldl cache_copy (st, This)).1) = _
    rw [hchar]
  refine ⟨rfl, ?_, ?_⟩
  · intro k hk
    rw [hcache]
    exact xmlHashLookup_append_of_mem hk
  · intro k id hk hthat
    have hpred : ((xmlHashLookup This.cache k).isNone) = true := by
      rw [xmlHashLookup_eq_none.2 hk]
      rfl
    constructor
    · rw [hcache, xmlHashLookup_append_right hk]
      exact xmlHashLookup_filter_of_nodup _ hKThat hthat hpred
    · rw [hstore]
      have hmem : (k, id) ∈ That.cache.filter
          (fun p => (xmlHashLookup This.cache p.1).isNone) :=
        List.mem_filter.2 ⟨xmlHashLookup_mem hthat, hpred⟩
      have hmemid : id ∈ (That.cache.filter
          (fun p => (xmlHashLookup This.cache p.1).isNone)).map
            (fun p => p.2) :=
        List.mem_map.2 ⟨(k, id), hmem, rfl⟩
      have hnd : ((That.cache.filter
          (fun p => (xmlHashLookup This.cache p.1).isNone)).map
            (fun p => p.2)).Nodup :=
        List.Nodup.sublist (List.Sublist.map _ (List.filter_sublist _)) hIThat
      rw [lookupEntry_foldl_add_ref _ st id hnd, if_pos hmemid]

/-- The shared store for the merge witness: one live entry at identifier 0. -/
def mergeStore : Store :=
  { entries := [(0, entryRef1)], freed := [], nextId := 1 }

/-- The source collection for the merge witness. -/
def mergeThat : schema_cache :=
  { cache := [("urn:x", 0)], ref := 1 }

/-- The (empty) destination collection for the merge witness. -/
def mergeThis : schema_cache :=
  { cache := [], ref := 1 }

/-- C7 witness: merging a one-entry collection into an empty one succeeds,
copies the key bound to the shared identifier 0, and bumps that entry's
count. -/
theorem claim_C7_witness :
    (schema_cache_addCollection mergeStore mergeThis (some mergeThat)).2.2 =
      HRESULT.S_OK ∧
    xmlHashLookup ((schema_cache_addCollection mergeStore mergeThis
      (some mergeThat)).2.1).cache "urn:x" = some 0 ∧
    lookupEntry (schema_cache_addCollection mergeStore mergeThis
      (some mergeThat)).1 0 =
      (lookupEntry mergeStore 0).map cache_entry_add_ref :=
  have main := claim_C7 mergeStore mergeThis mergeThat (by decide) (by decide)
  ⟨main.1, (main.2.2 "urn:x" 0 (by decide) (by rfl)).1,
   (main.2.2 "urn:x" 0 (by decide) (by rfl)).2⟩
